import Mathlib

/-!
Verification development for the forensiq ingestion, graph-population,
caching and query-orchestration subsystem.

The Python sources are shallowly embedded: pure functions become Lean
functions over `List Char` / `String` / `Nat`; the Redis-backed cache is
modelled through its in-memory fallback table (same contract, per the code);
external collaborators (tokenizer, embedder, Neo4j round-trips, page store)
are abstracted as oracle parameters exactly where the code calls out to them.
Machine integers do not occur (Python integers are arbitrary precision);
SHA-256 operates on `Nat` words reduced mod 2 to the 32.
-/

namespace Forensiq

/-! ### Basic character and string helpers (ASCII semantics of the Python code)

All strings that reach the helpers below are produced by the repository
itself (serialised artefact records, keyword tokens), which are ASCII, so
ASCII case folding coincides with Python `str.lower` / `str.upper` on the
reachable inputs. -/

def asciiLower (c : Char) : Char :=
  if 65 ≤ c.toNat ∧ c.toNat ≤ 90 then Char.ofNat (c.toNat + 32) else c

def asciiUpper (c : Char) : Char :=
  if 97 ≤ c.toNat ∧ c.toNat ≤ 122 then Char.ofNat (c.toNat - 32) else c

def lowerStr (s : String) : String := String.mk (s.data.map asciiLower)

def upperStr (s : String) : String := String.mk (s.data.map asciiUpper)

/-- Python whitespace class `\s` over ASCII: space, tab, newline, carriage
return, vertical tab, form feed. -/
def isPySpace (c : Char) : Bool :=
  c = ' ' || c = '\t' || c = '\n' || c = '\r' || c = Char.ofNat 11 || c = Char.ofNat 12

/-- `list.startswith`-style prefix test on character lists. -/
def listStartsWith : List Char → List Char → Bool
  | [], _ => true
  | _ :: _, [] => false
  | p :: ps, c :: cs => p = c && listStartsWith ps cs

def pyStartsWith (pfx s : String) : Bool := listStartsWith pfx.data s.data

/-- Substring containment (Python `sep in line`). -/
def listContainsSub (needle : List Char) : List Char → Bool
  | [] => listStartsWith needle []
  | c :: cs => listStartsWith needle (c :: cs) || listContainsSub needle cs

def containsSub (needle s : String) : Bool := listContainsSub needle.data s.data

/-- The part after the first occurrence of `needle`; Python
`line.split(needle, 1)[1]`. Callers in the source only use it after a
containment check, so the `none` case is unreachable there. -/
def afterFirst (needle : List Char) : List Char → Option (List Char)
  | [] => if needle = [] then some [] else none
  | c :: cs =>
    if listStartsWith needle (c :: cs) then some ((c :: cs).drop needle.length)
    else afterFirst needle cs

def afterFirstStr (needle s : String) : String :=
  String.mk ((afterFirst needle.data s.data).getD [])

/-- Python `str.strip()` (whitespace at both ends). -/
def pyStrip (s : String) : String :=
  String.mk (((s.data.dropWhile isPySpace).reverse.dropWhile isPySpace).reverse)

/-- Split on every occurrence of a separator character, keeping empty parts
(Python `str.split(sep)`). -/
def splitChar (sep : Char) : List Char → List (List Char)
  | [] => [[]]
  | c :: cs =>
    if c = sep then [] :: splitChar sep cs
    else
      match splitChar sep cs with
      | [] => [[c]]
      | p :: ps => (c :: p) :: ps

/-- Python `str.splitlines()` for texts whose only line separator is `\n`
(the only separator this repository emits): no trailing empty line, and the
empty string yields no lines. -/
def pySplitlines (s : String) : List String :=
  if s.data.isEmpty then []
  else
    let parts := splitChar '\n' s.data
    let parts := if s.data.getLast? = some '\n' then parts.dropLast else parts
    parts.map String.mk

/-- Python `str.split(sep)` for a one-character separator, as used for
`val.split(",")` and `parts.split("@")`. -/
def pySplitOn (sep : Char) (s : String) : List String :=
  (splitChar sep s.data).map String.mk

def joinWith (sep : String) : List String → String
  | [] => ""
  | [x] => x
  | x :: xs => x ++ sep ++ joinWith sep xs

/-! ### SHA-256 (embedding of `hashlib.sha256` on UTF-8 bytes)

`cache_key` and `_uid` hash the UTF-8 encoding of a joined string and keep a
prefix of the hex digest. 32-bit words are `Nat` values kept below 2^32. -/

def w32 (x : Nat) : Nat := x % 4294967296

def wadd (a b : Nat) : Nat := (a + b) % 4294967296

def rotr (x n : Nat) : Nat := w32 ((x >>> n) ||| (x <<< (32 - n)))

def bsig0 (x : Nat) : Nat := (rotr x 2) ^^^ (rotr x 13) ^^^ (rotr x 22)
def bsig1 (x : Nat) : Nat := (rotr x 6) ^^^ (rotr x 11) ^^^ (rotr x 25)
def ssig0 (x : Nat) : Nat := (rotr x 7) ^^^ (rotr x 18) ^^^ (x >>> 3)
def ssig1 (x : Nat) : Nat := (rotr x 17) ^^^ (rotr x 19) ^^^ (x >>> 10)
def chF (x y z : Nat) : Nat := (x &&& y) ^^^ ((x ^^^ 4294967295) &&& z)
def majF (x y z : Nat) : Nat := (x &&& y) ^^^ (x &&& z) ^^^ (y &&& z)

/-- The 64 SHA-256 round constants, written in decimal. -/
def sha256K : List Nat :=
  [1116352408, 1899447441, 3049323471, 3921009573, 961987163,
   1508970993, 2453635748, 2870763221, 3624381080, 310598401,
   607225278, 1426881987, 1925078388, 2162078206, 2614888103,
   3248222580, 3835390401, 4022224774, 264347078, 604807628,
   770255983, 1249150122, 1555081692, 1996064986, 2554220882,
   2821834349, 2952996808, 3210313671, 3336571891, 3584528711,
   113926993, 338241895, 666307205, 773529912, 1294757372,
   1396182291, 1695183700, 1986661051, 2177026350, 2456956037,
   2730485921, 2820302411, 3259730800, 3345764771, 3516065817,
   3600352804, 4094571909, 275423344, 430227734, 506948616,
   659060556, 883997877, 958139571, 1322822218, 1537002063,
   1747873779, 1955562222, 2024104815, 2227730452, 2361852424,
   2428436474, 2756734187, 3204031479, 3329325298]

/-- The eight initial SHA-256 hash words, written in decimal. -/
def sha256H0 : List Nat :=
  [1779033703, 3144134277, 1013904242, 2773480762, 1359893119,
   2600822924, 528734635, 1541459225]

/-- Big-endian bytes of the 64-bit message length. -/
def bytesBE8 (n : Nat) : List Nat :=
  [(n >>> 56) &&& 255, (n >>> 48) &&& 255, (n >>> 40) &&& 255, (n >>> 32) &&& 255,
   (n >>> 24) &&& 255, (n >>> 16) &&& 255, (n >>> 8) &&& 255, n &&& 255]

def sha256Pad (msg : List Nat) : List Nat :=
  let L := msg.length
  let k := (120 - ((L + 1) % 64)) % 64
  msg ++ [128] ++ List.replicate k 0 ++ bytesBE8 (8 * L)

/-- Group a byte list into big-endian 32-bit words. -/
def bytesToWords : List Nat → List Nat
  | b0 :: b1 :: b2 :: b3 :: rest =>
    (((b0 <<< 24) ||| (b1 <<< 16)) ||| ((b2 <<< 8) ||| b3)) :: bytesToWords rest
  | _ => []

/-- Split a word list into 16-word blocks. Structural recursion on a fuel
argument (one unit per block) keeps the definition kernel-reducible. -/
def toBlocksFuel : Nat → List Nat → List (List Nat)
  | 0, _ => []
  | _, [] => []
  | n + 1, w :: ws => (w :: ws).take 16 :: toBlocksFuel n ((w :: ws).drop 16)

def toBlocks (ws : List Nat) : List (List Nat) := toBlocksFuel ws.length ws

/-- Extend a 16-word window by the 48 scheduled words. -/
def sched48 : Nat → List Nat → List Nat
  | 0, _ => []
  | n + 1, win =>
    match win with
    | w0 :: w1 :: rest =>
      let w9 := rest.getD 7 0
      let w14 := rest.getD 12 0
      let nw := wadd (wadd (ssig1 w14) w9) (wadd (ssig0 w1) w0)
      nw :: sched48 n (w1 :: (rest ++ [nw]))
    | _ => []

def schedule (block : List Nat) : List Nat := block ++ sched48 48 block

structure Hash8 where
  a : Nat
  b : Nat
  c : Nat
  d : Nat
  e : Nat
  f : Nat
  g : Nat
  h : Nat

def compressRound (st : Hash8) (kw : Nat × Nat) : Hash8 :=
  let t1 := wadd (wadd st.h (bsig1 st.e)) (wadd (chF st.e st.f st.g) (wadd kw.1 kw.2))
  let t2 := wadd (bsig0 st.a) (majF st.a st.b st.c)
  ⟨wadd t1 t2, st.a, st.b, st.c, wadd st.d t1, st.e, st.f, st.g⟩

def hash8OfList : List Nat → Hash8
  | [a, b, c, d, e, f, g, h] => ⟨a, b, c, d, e, f, g, h⟩
  | _ => ⟨0, 0, 0, 0, 0, 0, 0, 0⟩

def processBlock (h : List Nat) (block : List Nat) : List Nat :=
  let st0 := hash8OfList h
  let st := (sha256K.zip (schedule block)).foldl compressRound st0
  match h with
  | [a, b, c, d, e, f, g, hh] =>
    [wadd a st.a, wadd b st.b, wadd c st.c, wadd d st.d,
     wadd e st.e, wadd f st.f, wadd g st.g, wadd hh st.h]
  | _ => h

def wordToBytes (w : Nat) : List Nat :=
  [(w >>> 24) &&& 255, (w >>> 16) &&& 255, (w >>> 8) &&& 255, w &&& 255]

def hexChar (n : Nat) : Char :=
  if n < 10 then Char.ofNat (48 + n) else Char.ofNat (87 + n)

def byteToHex (b : Nat) : List Char := [hexChar (b >>> 4), hexChar (b &&& 15)]

/-- Full SHA-256 hex digest of a byte sequence. -/
def sha256Hex (msg : List Nat) : List Char :=
  let blocks := toBlocks (bytesToWords (sha256Pad msg))
  let final := blocks.foldl processBlock sha256H0
  (final.flatMap wordToBytes).flatMap byteToHex

/-- UTF-8 encoding of one code point (Python `str.encode()`). -/
def utf8Char (c : Nat) : List Nat :=
  if c < 128 then [c]
  else if c < 2048 then [192 ||| (c >>> 6), 128 ||| (c &&& 63)]
  else if c < 65536 then
    [224 ||| (c >>> 12), 128 ||| ((c >>> 6) &&& 63), 128 ||| (c &&& 63)]
  else
    [240 ||| (c >>> 18), 128 ||| ((c >>> 12) &&& 63),
     128 ||| ((c >>> 6) &&& 63), 128 ||| (c &&& 63)]

def utf8Bytes (s : String) : List Nat := s.data.flatMap (fun c => utf8Char c.toNat)

def sha256HexOfString (s : String) : List Char := sha256Hex (utf8Bytes s)

/-! ### Response-cache fingerprinting (`forensiq/cache/redis_cache.py`) -/

/-- The fixed stop-word list `_STOP_WORDS`. -/
def stopWords : List String :=
  ["a", "an", "the", "is", "are", "was", "were", "be", "been", "being",
   "have", "has", "had", "do", "does", "did", "will", "would", "shall",
   "should", "can", "could", "may", "might", "must", "of", "in", "to",
   "for", "on", "with", "at", "by", "from", "as", "into", "about",
   "between", "through", "after", "before", "above", "below", "up", "down",
   "out", "off", "over", "under", "again", "further", "then", "once",
   "here", "there", "when", "where", "why", "how", "all", "each", "every",
   "both", "few", "more", "most", "some", "any", "no", "not", "only",
   "own", "same", "so", "than", "too", "very", "it", "its", "he", "she",
   "they", "them", "their", "what", "which", "who", "whom", "this", "that",
   "these", "those", "and", "but", "or", "nor", "if", "while", "i", "me",
   "my", "we", "our", "you", "your"]

/-- Character class of `_WORD_RE`: `[a-z0-9+@._-]` with IGNORECASE. -/
def isKwChar (c : Char) : Bool :=
  (97 ≤ c.toNat && c.toNat ≤ 122) || (65 ≤ c.toNat && c.toNat ≤ 90) ||
  (48 ≤ c.toNat && c.toNat ≤ 57) ||
  c = '+' || c = '@' || c = '.' || c = '_' || c = '-'

/-- Lexicographic comparison of character lists by code point: the order
Python uses when sorting keyword strings. (The builtin `String` order of
Lean goes through byte iterators whose recursion the kernel cannot
evaluate, so the embedding carries its own structural definition.) -/
def listCharLe : List Char → List Char → Bool
  | [], _ => true
  | _ :: _, [] => false
  | a :: as, b :: bs => if a = b then listCharLe as bs else decide (a.toNat < b.toNat)

def strLe (a b : String) : Bool := listCharLe a.data b.data

/-- Propositional form of `strLe`, used as the sorting relation. -/
def strLeR (a b : String) : Prop := strLe a b = true

instance : DecidableRel strLeR := fun a b => by
  unfold strLeR; infer_instance

/-- `findall` of `[a-z0-9+@._-]+`: the maximal runs of class characters. -/
def kwRunsAux : List Char → List Char → List String
  | [], acc => if acc.isEmpty then [] else [String.mk acc.reverse]
  | c :: cs, acc =>
    if isKwChar c then kwRunsAux cs (c :: acc)
    else if acc.isEmpty then kwRunsAux cs []
    else String.mk acc.reverse :: kwRunsAux cs []

def findTokens (s : String) : List String := kwRunsAux s.data []

/-- `extract_keywords`: lowercase, tokenize, drop stop words and
one-character tokens, deduplicate, sort lexicographically. -/
def extract_keywords (text : String) : List String :=
  let ws := findTokens (lowerStr text)
  List.insertionSort strLeR
    ((ws.filter (fun w => !stopWords.contains w && w.length > 1)).dedup)

/-- `cache_key`: first 24 hex characters of the SHA-256 of the
bar-joined keyword list. -/
def cache_key (keywords : List String) : String :=
  String.mk ((sha256HexOfString (joinWith "|" keywords)).take 24)

/-- `_uid` from the graph extractor: first 16 hex characters of the SHA-256
of the bar-joined components. -/
def uidOf (parts : List String) : String :=
  String.mk ((sha256HexOfString (joinWith "|" parts)).take 16)

/-! ### ResponseCache (`forensiq/cache/redis_cache.py`)

The cache is modelled through its in-memory fallback table `_fallback`
(`dict[str, dict]`); the code guarantees the Redis path implements the
identical contract. TTLs are ignored by the fallback `_set`, exactly as in
the source. `created_at` (wall-clock time) is passed in as a string
parameter. The optional `metadata` override of `store` is not exercised by
any claim and is omitted. -/

structure CacheEntry where
  prompt : String
  keywords : List String
  response : String
  rag_context_summary : String
  created_at : String
  hit_count : Nat
deriving DecidableEq, Repr

/-- The fallback dict: association list keyed by the full Redis key. -/
def CacheMap := List (String × CacheEntry)

def cachePrefix : String := "forensiq:cache:"

def mapGet (m : CacheMap) (k : String) : Option CacheEntry :=
  match m with
  | [] => none
  | (k', v) :: rest => if k' = k then some v else mapGet rest k

/-- Upsert: replace the value at an existing key, else append. -/
def mapSet (m : CacheMap) (k : String) (v : CacheEntry) : CacheMap :=
  match m with
  | [] => [(k, v)]
  | (k', v') :: rest =>
    if k' = k then (k, v) :: rest else (k', v') :: mapSet rest k v

def mapDelete (m : CacheMap) (k : String) : CacheMap :=
  match m with
  | [] => []
  | (k', v') :: rest =>
    if k' = k then rest else (k', v') :: mapDelete rest k

/-- `ResponseCache.lookup`: returns the (hit-bumped) entry and the updated
table. -/
def cacheLookup (m : CacheMap) (prompt : String) : Option CacheEntry × CacheMap :=
  let keywords := extract_keywords prompt
  if keywords.isEmpty then (none, m)
  else
    let key := cachePrefix ++ cache_key keywords
    match mapGet m key with
    | none => (none, m)
    | some e =>
      let e' := { e with hit_count := e.hit_count + 1 }
      (some e', mapSet m key e')

/-- `ResponseCache.store`: returns the cache key and the updated table. -/
def cacheStore (m : CacheMap) (prompt response ragSummary createdAt : String) :
    String × CacheMap :=
  let keywords := extract_keywords prompt
  let key := cachePrefix ++ cache_key keywords
  let entry : CacheEntry :=
    { prompt := prompt, keywords := keywords, response := response,
      rag_context_summary := ragSummary, created_at := createdAt, hit_count := 0 }
  (key, mapSet m key entry)

/-- `ResponseCache.invalidate`. -/
def cacheInvalidate (m : CacheMap) (prompt : String) : Bool × CacheMap :=
  let key := cachePrefix ++ cache_key (extract_keywords prompt)
  ((mapGet m key).isSome, mapDelete m key)

/-- `ResponseCache.flush_all` on the fallback table: `_fallback.clear()`. -/
def cacheFlushAll (_m : CacheMap) : CacheMap := []

/-! ### Entity extraction (`backend/forensiq/graphrag/extractor.py`)

The four module-level regular expressions are embedded as dedicated
recognisers. Each follows Python `finditer` semantics: anchored attempts at
every position from left to right, greedy quantifiers (backtracking is
resolved statically below because every separator lies outside the adjacent
character class), and scanning resumes after the end of a match. -/

/-- `finditer` driver: `tryAt` attempts an anchored match at the current
position, returning the consumed length and the payload. Structural
recursion on fuel (one unit per examined position) keeps it
kernel-reducible; `regexScan` supplies `length` fuel, which suffices since
every step consumes at least one character. -/
def regexScanFuel {α : Type} (tryAt : List Char → Option (Nat × α)) :
    Nat → List Char → List α
  | 0, _ => []
  | _ + 1, [] => []
  | n + 1, c :: cs =>
    match tryAt (c :: cs) with
    | some (k, a) => a :: regexScanFuel tryAt n ((c :: cs).drop (max 1 k))
    | none => regexScanFuel tryAt n cs

def regexScan {α : Type} (tryAt : List Char → Option (Nat × α)) (cs : List Char) :
    List α :=
  regexScanFuel tryAt cs.length cs

/-- Character class `[\d\-\s]` of `_PHONE_RE`. -/
def isPhoneClass (c : Char) : Bool := c.isDigit || c = '-' || isPySpace c

/-- `_PHONE_RE.fullmatch`: the whole string matches `\+?\d[\d\-\s]{7,}\d`. -/
def phoneFullmatch (s : String) : Bool :=
  let cs := match s.data with
    | '+' :: rest => rest
    | l => l
  match cs with
  | [] => false
  | d :: rest =>
    d.isDigit && decide (8 ≤ rest.length) && rest.dropLast.all isPhoneClass &&
    (match rest.getLast? with
     | some c => c.isDigit
     | none => false)

/-- Largest index `i ≥ 7` of a digit in the run following the first digit:
the greedy backtracking point of `[\d\-\s]{7,}\d`. -/
def lastDigitIdxFrom7 (run : List Char) : Option Nat :=
  (List.range run.length).foldl
    (fun acc i => if 7 ≤ i && (run.getD i ' ').isDigit then some i else acc) none

/-- Anchored attempt of `_PHONE_RE`: `(?:\+?\d[\d\-\s]{7,}\d)`. -/
def phoneTryAt (cs : List Char) : Option (Nat × String) :=
  let (hasPlus, cs1) := match cs with
    | '+' :: rest => (true, rest)
    | l => (false, l)
  match cs1 with
  | [] => none
  | d :: rest =>
    if d.isDigit then
      match lastDigitIdxFrom7 (rest.takeWhile isPhoneClass) with
      | some i =>
        let m := (if hasPlus then ['+'] else []) ++ d :: (rest.takeWhile isPhoneClass).take (i + 1)
        some (m.length, String.mk m)
      | none => none
    else none

def phoneFindAll (cs : List Char) : List String := regexScan phoneTryAt cs

/-- Character classes of `_EMAIL_RE`:
`[a-zA-Z0-9_.+-]+@[a-zA-Z0-9-]+\.[a-zA-Z0-9-.]+`. -/
def isEmailLocalChar (c : Char) : Bool :=
  c.isAlpha || c.isDigit || c = '_' || c = '.' || c = '+' || c = '-'

def isDomainChar (c : Char) : Bool := c.isAlpha || c.isDigit || c = '-'

def isTldChar (c : Char) : Bool := c.isAlpha || c.isDigit || c = '-' || c = '.'

def emailTryAt (cs : List Char) : Option (Nat × String) :=
  let loc := cs.takeWhile isEmailLocalChar
  if loc.isEmpty then none
  else
    match cs.drop loc.length with
    | '@' :: rest =>
      let dom := rest.takeWhile isDomainChar
      if dom.isEmpty then none
      else
        match rest.drop dom.length with
        | '.' :: rest2 =>
          let tld := rest2.takeWhile isTldChar
          if tld.isEmpty then none
          else
            let m := loc ++ '@' :: (dom ++ '.' :: tld)
            some (m.length, String.mk m)
        | _ => none
    | _ => none

def emailFindAll (cs : List Char) : List String := regexScan emailTryAt cs

/-- Character class of the body of `_URL_RE`: everything except whitespace,
double quote (code 34), single quote (code 39) and angle brackets. -/
def isUrlChar (c : Char) : Bool :=
  !isPySpace c && c ≠ Char.ofNat 34 && c ≠ Char.ofNat 39 && c ≠ '<' && c ≠ '>'

/-- Anchored attempt of `_URL_RE`: the literal scheme `http`, an optional
`s`, then `://` and a nonempty greedy run of body characters. -/
def urlTryAt (cs : List Char) : Option (Nat × String) :=
  if listStartsWith ("http").data cs then
    let rest := cs.drop 4
    let (sPart, rest1) : List Char × List Char := match rest with
      | 's' :: r => (['s'], r)
      | r => ([], r)
    if listStartsWith ("://").data rest1 then
      let body := (rest1.drop 3).takeWhile isUrlChar
      if body.isEmpty then none
      else
        let m := ("http").data ++ sPart ++ ("://").data ++ body
        some (m.length, String.mk m)
    else none
  else none

def urlFindAll (cs : List Char) : List String := regexScan urlTryAt cs

/-- Anchored attempt of one coordinate group `-?\d{1,3}\.\d{3,}`: returns
the matched characters and the remainder. A maximal integer-part run longer
than three digits can never be followed by the mandatory dot, so the
backtracking of `\d{1,3}` resolves to failure exactly then. -/
def numTryAt (cs : List Char) : Option (List Char × List Char) :=
  let (sign, cs1) : List Char × List Char := match cs with
    | '-' :: rest => (['-'], rest)
    | l => ([], l)
  let ds := cs1.takeWhile Char.isDigit
  if ds.isEmpty || decide (3 < ds.length) then none
  else
    match cs1.drop ds.length with
    | '.' :: rest2 =>
      let fs := rest2.takeWhile Char.isDigit
      if decide (fs.length < 3) then none
      else some (sign ++ ds ++ '.' :: fs, rest2.drop fs.length)
    | _ => none

/-- Anchored attempt of `_COORDS_RE`:
`(-?\d{1,3}\.\d{3,}),\s*(-?\d{1,3}\.\d{3,})`, yielding the two groups. -/
def coordsTryAt (cs : List Char) : Option (Nat × (String × String)) :=
  match numTryAt cs with
  | some (g1, rest1) =>
    match rest1 with
    | ',' :: rest2 =>
      let ws := rest2.takeWhile isPySpace
      match numTryAt (rest2.drop ws.length) with
      | some (g2, _) =>
        some (g1.length + 1 + ws.length + g2.length, (String.mk g1, String.mk g2))
      | none => none
    | _ => none
  | none => none

def coordsFindAll (cs : List Char) : List (String × String) := regexScan coordsTryAt cs

/-- The Page data model (`pageindex/page.py`), restricted to the fields the
core subsystem reads. `page_id` defaults to a fresh UUID in the source; it
is supplied explicitly here. The mutable `embedding` / `entities`
attachments are downstream state recomputed by the functions that need
them. -/
structure FPage where
  page_id : String := ""
  extraction_id : String := ""
  artifact_type : String := ""
  source_section : String := ""
  page_number : Nat := 0
  title : String := ""
  body : String := ""
  token_count : Nat := 0
  metadata : List (String × String) := []
deriving DecidableEq, Repr

/-- One candidate entity as produced by `extract_entities`. Property values
are modelled as their string rendering (the only non-string property values
in the source are the two coordinate floats, which no claim touches). -/
structure Entity where
  label : String
  key_field : String
  key_value : String
  props : List (String × String)
deriving DecidableEq, Repr

def stripPhoneSeps (s : String) : String :=
  String.mk (s.data.filter (fun c => !(isPySpace c || c = '-')))

def phoneEntity (m : String) : Entity :=
  { label := "PhoneNumber", key_field := "number", key_value := stripPhoneSeps m,
    props := [("raw", pyStrip m)] }

def emailEntity (m : String) : Entity :=
  { label := "EmailAddress", key_field := "address", key_value := lowerStr m, props := [] }

def urlEntity (m : String) : Entity :=
  { label := "URL", key_field := "address", key_value := m, props := [] }

def locationEntity (lat lon : String) : Entity :=
  { label := "Location", key_field := "uid", key_value := uidOf [lat, lon],
    props := [("latitude", lat), ("longitude", lon)] }

def personEntity (name : String) : Entity :=
  { label := "Person", key_field := "uid", key_value := uidOf ["person", lowerStr name],
    props := [("name", name)] }

/-- `_extract_contact_entities`, per line. -/
def contactLineEnts (line : String) : List Entity :=
  (if pyStartsWith "Contact:" line then
    let name := pyStrip (afterFirstStr ":" line)
    if name ≠ "" then [personEntity name] else []
  else []) ++
  (if containsSub "Org:" line then
    let org := pyStrip (afterFirstStr "Org:" line)
    if org ≠ "" then
      [{ label := "Organization", key_field := "name", key_value := org, props := [] }]
    else []
  else [])

def contactEnts (text : String) : List Entity :=
  (pySplitlines text).flatMap contactLineEnts

/-- The `From:` / `To:` handling of `_extract_message_entities`. -/
def msgPersonsAfter (pfx line : String) : List Entity :=
  if containsSub pfx line then
    ((pySplitOn ',' (pyStrip (afterFirstStr pfx line))).map pyStrip).filterMap
      (fun part =>
        if part ≠ "" && !phoneFullmatch part then some (personEntity part) else none)
  else []

def messageLineEnts (line : String) : List Entity :=
  msgPersonsAfter "From:" line ++ msgPersonsAfter "To:" line ++
  (if containsSub "App:" line then
    let app := pyStrip (afterFirstStr "App:" line)
    if app ≠ "" then
      [{ label := "App", key_field := "package", key_value := lowerStr app,
         props := [("name", app)] }]
    else []
  else [])

def messageEnts (text : String) : List Entity :=
  (pySplitlines text).flatMap messageLineEnts

/-- `_extract_call_entities`, per line. -/
def callLineEnts (line : String) : List Entity :=
  if pyStartsWith "Call" line then
    (["Call (incoming):", "Call (outgoing):", "Call (missed):"]).flatMap (fun pfx =>
      if pyStartsWith pfx line then
        let val := pyStrip (afterFirstStr pfx line)
        if val ≠ "" && !phoneFullmatch val then [personEntity val] else []
      else [])
  else []

def callEnts (text : String) : List Entity :=
  (pySplitlines text).flatMap callLineEnts

def upsertProp (ps : List (String × String)) (k v : String) : List (String × String) :=
  match ps with
  | [] => [(k, v)]
  | (k', v') :: rest => if k' = k then (k, v) :: rest else (k', v') :: upsertProp rest k v

def updFirstApp : List Entity → String → List Entity
  | [], _ => []
  | e :: es, pkg =>
    if e.label = "App" then
      { e with key_value := pkg, props := upsertProp e.props "package_name" pkg } :: es
    else e :: updFirstApp es pkg

/-- The `Package:` backfill of `_extract_app_entities`: update the most
recently appended App entity. -/
def updateLastApp (ents : List Entity) (pkg : String) : List Entity :=
  (updFirstApp ents.reverse pkg).reverse

def appLineApply (ents : List Entity) (line : String) : List Entity :=
  let ents1 :=
    if pyStartsWith "App:" line then
      let name := pyStrip (afterFirstStr ":" line)
      if name ≠ "" then
        ents ++ [{ label := "App", key_field := "package", key_value := lowerStr name,
                   props := [("name", name)] }]
      else ents
    else ents
  if containsSub "Package:" line then
    let pkg := pyStrip (afterFirstStr "Package:" line)
    if pkg ≠ "" then updateLastApp ents1 pkg else ents1
  else ents1

/-- `_extract_app_entities` mutates the running entity list, so it is
modelled as a fold transforming it. -/
def appEnts (text : String) (init : List Entity) : List Entity :=
  (pySplitlines text).foldl appLineApply init

/-- `_extract_account_entities`, per line. -/
def accountLineEnts (line : String) : List Entity :=
  if pyStartsWith "Account:" line then
    let parts := pyStrip (afterFirstStr ":" line)
    if containsSub "@" parts then
      let pieces := pySplitOn '@' parts
      let username := pyStrip (pieces.getD 0 "")
      let service := if 1 < pieces.length then pyStrip (pieces.getD 1 "") else ""
      [{ label := "Account", key_field := "uid",
         key_value := uidOf ["account", lowerStr username, lowerStr service],
         props := [("username", username), ("service", service)] }]
    else []
  else []

def accountEnts (text : String) : List Entity :=
  (pySplitlines text).flatMap accountLineEnts

def msgArtifactTypes : List String := ["message", "chat_message", "sms", "mms"]

/-- `extract_entities`: generic patterns on every page, then the
artifact-type-specific rules. -/
def extract_entities (page : FPage) : List Entity :=
  let text := page.body
  let base :=
    (phoneFindAll text.data).map phoneEntity ++
    (emailFindAll text.data).map emailEntity ++
    (urlFindAll text.data).map urlEntity ++
    (coordsFindAll text.data).map (fun p => locationEntity p.1 p.2)
  if page.artifact_type = "contact" then base ++ contactEnts text
  else if msgArtifactTypes.contains page.artifact_type then base ++ messageEnts text
  else if page.artifact_type = "call_log" then base ++ callEnts text
  else if page.artifact_type = "installed_app" then appEnts text base
  else if page.artifact_type = "account" then base ++ accountEnts text
  else base

/-! ### Relationship inference (`_infer_relationships`) -/

/-- A relationship as handed to `Neo4jClient.merge_relationship`. No caller
in the population path supplies relationship properties. -/
structure GraphRel where
  src_label : String
  src_key : String
  src_val : String
  rel_type : String
  dst_label : String
  dst_key : String
  dst_val : String
deriving DecidableEq, Repr

def mentionRel (e : Entity) (pageId : String) : GraphRel :=
  ⟨e.label, e.key_field, e.key_value, "MENTIONED_IN", "Page", "page_id", pageId⟩

def hasPhoneRel (p q : Entity) : GraphRel :=
  ⟨"Person", p.key_field, p.key_value, "HAS_PHONE", "PhoneNumber", q.key_field, q.key_value⟩

def hasEmailRel (p q : Entity) : GraphRel :=
  ⟨"Person", p.key_field, p.key_value, "HAS_EMAIL", "EmailAddress", q.key_field, q.key_value⟩

def belongsToOrgRel (p q : Entity) : GraphRel :=
  ⟨"Person", p.key_field, p.key_value, "BELONGS_TO_ORG", "Organization", q.key_field, q.key_value⟩

def messagedRel (p q : Entity) : GraphRel :=
  ⟨"Person", p.key_field, p.key_value, "MESSAGED", "Person", q.key_field, q.key_value⟩

def calledRel (p q : Entity) : GraphRel :=
  ⟨"Person", p.key_field, p.key_value, "CALLED", "Person", q.key_field, q.key_value⟩

def inferRelationships (page : FPage) (entities : List Entity) : List GraphRel :=
  let mentions := entities.map (fun e => mentionRel e page.page_id)
  let persons := entities.filter (fun e => e.label == "Person")
  let phones := entities.filter (fun e => e.label == "PhoneNumber")
  let emails := entities.filter (fun e => e.label == "EmailAddress")
  let orgs := entities.filter (fun e => e.label == "Organization")
  let pairRels := persons.flatMap (fun p =>
    phones.map (hasPhoneRel p) ++ emails.map (hasEmailRel p) ++ orgs.map (belongsToOrgRel p))
  let msgRels :=
    if msgArtifactTypes.contains page.artifact_type then
      match persons with
      | p0 :: p1 :: _ => [messagedRel p0 p1]
      | _ => []
    else []
  let callRels :=
    if page.artifact_type = "call_log" then
      match persons with
      | p0 :: p1 :: _ => [calledRel p0 p1]
      | _ => []
    else []
  mentions ++ pairRels ++ msgRels ++ callRels

/-! ### Graph store and population protocol
(`backend/forensiq/graphrag/neo4j_client.py`, `populate_graph`)

The Neo4j database is modelled as lists of nodes and relationships. A node
carries its label, its natural-key field and value (a key is an ordinary
property in Neo4j, which `nodeProp` reflects), and a property bag; property
values are modelled as strings. `MERGE` on `(label, key_field, key_value)`
followed by `SET n += props` is `mergeNode`; `DETACH DELETE` of the nodes
satisfying a predicate is `detachDeleteWhere`. -/

structure GraphNode where
  label : String
  keyField : String
  keyValue : String
  props : List (String × String)
deriving DecidableEq, Repr

structure Graph where
  nodes : List GraphNode
  rels : List GraphRel
deriving DecidableEq, Repr

/-- Property access: the natural key is itself a property of the node. -/
def nodeProp (n : GraphNode) (k : String) : Option String :=
  if n.keyField = k then some n.keyValue
  else (n.props.find? (fun kv => kv.1 == k)).map Prod.snd

def relTouches (r : GraphRel) (n : GraphNode) : Bool :=
  (r.src_label == n.label && r.src_key == n.keyField && r.src_val == n.keyValue) ||
  (r.dst_label == n.label && r.dst_key == n.keyField && r.dst_val == n.keyValue)

/-- `MATCH (n:...) DETACH DELETE n` for all nodes satisfying `p`: the nodes
disappear together with every relationship attached to one of them. -/
def detachDeleteWhere (g : Graph) (p : GraphNode → Bool) : Graph :=
  { nodes := g.nodes.filter (fun n => !p n),
    rels := g.rels.filter (fun r => !(g.nodes.any (fun n => p n && relTouches r n))) }

def nodeMatchesKey (label keyField keyValue : String) (n : GraphNode) : Bool :=
  n.label == label && n.keyField == keyField && n.keyValue == keyValue

/-- `SET n += props`: add or overwrite each supplied property. -/
def mergeProps (old new : List (String × String)) : List (String × String) :=
  new.foldl (fun ps kv => upsertProp ps kv.1 kv.2) old

/-- `MERGE (n:label {keyField: keyValue}) SET n += props`. -/
def mergeNode (g : Graph) (label keyField keyValue : String)
    (props : List (String × String)) : Graph :=
  if g.nodes.any (nodeMatchesKey label keyField keyValue) then
    { g with nodes := g.nodes.map (fun n =>
        if nodeMatchesKey label keyField keyValue n then
          { n with props := mergeProps n.props props }
        else n) }
  else
    { g with nodes := g.nodes ++ [⟨label, keyField, keyValue, mergeProps [] props⟩] }

/-- `Neo4jClient.batch_merge_nodes`: UNWIND-merge of the items of one label
group. -/
def batchMergeNodes (g : Graph) (label keyField : String)
    (items : List (String × List (String × String))) : Graph :=
  items.foldl (fun g it => mergeNode g label keyField it.1 it.2) g

/-- One step of the relationship UNWIND: merge both endpoint nodes, then
merge the relationship (no relationship properties are supplied anywhere in
the population path). -/
def mergeEndpointsAndRel (g : Graph) (r : GraphRel) : Graph :=
  let g1 := mergeNode g r.src_label r.src_key r.src_val []
  let g2 := mergeNode g1 r.dst_label r.dst_key r.dst_val []
  if g2.rels.contains r then g2 else { g2 with rels := g2.rels ++ [r] }

def relGroupKey (r : GraphRel) : String × String × String × String × String :=
  (r.src_label, r.src_key, r.rel_type, r.dst_label, r.dst_key)

/-- Insertion-ordered grouping by `(src_label, src_key, rel_type, dst_label,
dst_key)`, as `batch_merge_relationships` builds with a defaultdict. -/
def groupRelsAdd (gs : List ((String × String × String × String × String) × List GraphRel))
    (r : GraphRel) :
    List ((String × String × String × String × String) × List GraphRel) :=
  match gs with
  | [] => [(relGroupKey r, [r])]
  | (k, rs) :: rest =>
    if k = relGroupKey r then (k, rs ++ [r]) :: rest
    else (k, rs) :: groupRelsAdd rest r

def batchMergeRelationships (g : Graph) (rels : List GraphRel) : Graph :=
  let groups := rels.foldl groupRelsAdd []
  groups.foldl (fun g grp => grp.2.foldl mergeEndpointsAndRel g) g

/-- Number of nodes carrying a given natural key: the resolution measure
for idempotent merging. -/
def countKey (g : Graph) (label keyField keyValue : String) : Nat :=
  (g.nodes.filter (nodeMatchesKey label keyField keyValue)).length

/-- The `populate_graph` cleanup targets: Page nodes of the project, then
the Project hub itself. -/
def isPageOfProject (pid : String) (n : GraphNode) : Bool :=
  n.label == "Page" && nodeProp n "project_id" == some pid

def isProjectHub (pid : String) (n : GraphNode) : Bool :=
  n.label == "Project" && nodeProp n "project_id" == some pid

/-- The delete phase of `populate_graph`: `MATCH (n:Page {project_id:
$pid}) DETACH DELETE n`, then `MATCH (pr:Project {project_id: $pid}) DETACH
DELETE pr`. -/
def populateClean (g : Graph) (pid : String) : Graph :=
  detachDeleteWhere (detachDeleteWhere g (isPageOfProject pid)) (isProjectHub pid)

/-- One node group of `populate_graph` (one label of the defaultdict); the
key field is overwritten on every insertion, as the source does. -/
structure NodeGroup where
  label : String
  keyField : String
  items : List (String × List (String × String))
deriving DecidableEq, Repr

def groupsAdd (gs : List NodeGroup) (label keyField : String)
    (item : String × List (String × String)) : List NodeGroup :=
  match gs with
  | [] => [⟨label, keyField, [item]⟩]
  | g :: rest =>
    if g.label = label then ⟨label, keyField, g.items ++ [item]⟩ :: rest
    else g :: groupsAdd rest label keyField item

def metaGet (m : List (String × String)) (k d : String) : String :=
  match m.find? (fun kv => kv.1 == k) with
  | some kv => kv.2
  | none => d

/-- Device-name scan of `populate_graph`: first `device_info` page, first
line whose stripped form starts with `Name:`. -/
def deviceNameOf (pages : List FPage) : Option String :=
  match pages.find? (fun p => p.artifact_type == "device_info") with
  | some pg =>
    (pySplitlines pg.body).findSome? (fun line =>
      if pyStartsWith "Name:" (pyStrip line) then some (pyStrip (afterFirstStr ":" line))
      else none)
  | none => none

structure PopulateStats where
  entities : Nat
  relationships : Nat
  pages : Nat
  project_id : String
  project_name : String
deriving DecidableEq, Repr

/-- `populate_graph`: derive the project identity, delete the Page nodes of the
project and Project hub, collect node groups and relationships from all
pages, then batch-merge nodes and relationships. `now` stands for the
wall-clock `created_at` string. (`ensure_schema` and the logging calls have
no graph-state effect.) -/
def populateGraph (g : Graph) (pages : List FPage) (projectName now : String) :
    Graph × PopulateStats :=
  match pages with
  | [] => (g, ⟨0, 0, 0, "", ""⟩)
  | p0 :: _ =>
    let pid := p0.extraction_id
    let pname :=
      if projectName ≠ "" then projectName
      else
        match deviceNameOf pages with
        | some n => if n ≠ "" then n else metaGet p0.metadata "source_file" pid
        | none => metaGet p0.metadata "source_file" pid
    let g1 := populateClean g pid
    let gs0 : List NodeGroup :=
      [⟨"Project", "project_id",
        [(pid, [("name", pname), ("extraction_id", pid),
                ("page_count", toString pages.length), ("created_at", now)])]⟩]
    let st := pages.foldl
      (fun (st : List NodeGroup × List GraphRel × Nat × Nat) page =>
        let (gs, rels, te, tr) := st
        let gs := groupsAdd gs "Page" "page_id"
          (page.page_id,
           [("artifact_type", page.artifact_type), ("title", page.title),
            ("extraction_id", page.extraction_id),
            ("page_number", toString page.page_number), ("project_id", pid)])
        let rels := rels ++
          [⟨"Page", "page_id", page.page_id, "PART_OF", "Project", "project_id", pid⟩]
        let ents := extract_entities page
        let (gs, rels) := ents.foldl
          (fun (pr : List NodeGroup × List GraphRel) ent =>
            let (gs, rels) := pr
            let gs := groupsAdd gs ent.label ent.key_field
              (ent.key_value, upsertProp ent.props "project_id" pid)
            (gs, rels ++
              [⟨ent.label, ent.key_field, ent.key_value, "PART_OF",
                "Project", "project_id", pid⟩]))
          (gs, rels)
        let pageRels := inferRelationships page ents
        (gs, rels ++ pageRels, te + ents.length, tr + pageRels.length))
      (gs0, [], 0, 0)
    let (gs, allRels, totalEnts, inferredRels) := st
    let g2 := gs.foldl (fun g grp => batchMergeNodes g grp.label grp.keyField grp.items) g1
    let g3 := batchMergeRelationships g2 allRels
    let totalRels := inferredRels + allRels.countP (fun r => r.rel_type == "PART_OF")
    (g3, ⟨totalEnts, totalRels, pages.length, pid, pname⟩)

/-! ### Content chunker (`forensiq/pageindex/indexer.py`)

The tokenizer (`tiktoken`) is an external collaborator and is passed in as
`tok : String → Nat`. `_batch_into_pages` is embedded with an instrumented
variant that also returns, for each emitted page, the list of serialised
records that went into it; the public function projects the pages out. The
random UUID page ids of freshly constructed pages are modelled as `""`. -/

def mkChunkPage (extId artType sec : String) (pn : Nat) (buf : List String)
    (tc : Nat) : FPage :=
  { extraction_id := extId, artifact_type := artType, source_section := sec,
    page_number := pn, title := sec ++ " (page " ++ toString pn ++ ")",
    body := joinWith "\n\n" buf, token_count := tc }

/-- The accumulation loop of `_batch_into_pages`: `buf` and `curTok` mirror
`current_lines` and `current_tokens`, `pn` mirrors `page_num`. -/
def batchGoAux (tok : String → Nat) (artType sec extId : String) (maxT : Nat) :
    List String → List String → Nat → Nat → List (FPage × List String)
  | [], buf, curTok, pn =>
    if buf.isEmpty then []
    else [(mkChunkPage extId artType sec pn buf curTok, buf)]
  | item :: rest, buf, curTok, pn =>
    let tc := tok item
    if maxT < curTok + tc && !buf.isEmpty then
      (mkChunkPage extId artType sec pn buf curTok, buf) ::
        batchGoAux tok artType sec extId maxT rest [item] tc (pn + 1)
    else
      batchGoAux tok artType sec extId maxT rest (buf ++ [item]) (curTok + tc) pn

def batchIntoPagesAux (tok : String → Nat) (artType sec extId : String)
    (startPage maxT : Nat) (items : List String) : List (FPage × List String) :=
  batchGoAux tok artType sec extId maxT items [] 0 startPage

/-- `_batch_into_pages`. -/
def batchIntoPages (tok : String → Nat) (artType sec extId : String)
    (startPage maxT : Nat) (items : List String) : List FPage :=
  (batchIntoPagesAux tok artType sec extId startPage maxT items).map Prod.fst

/-! Artefact records and serialisers used by the ingest scenario. Optional
datetime fields are modelled as absent (the serialisers skip absent
timestamps, and the scenario records carry none). -/

structure Contact where
  name : String := ""
  phone_numbers : List String := []
  emails : List String := []
  organization : String := ""
  source : String := ""
deriving Repr

/-- `_serialise_contact`. -/
def serialiseContact (c : Contact) : String :=
  joinWith "\n"
    (["Contact: " ++ c.name] ++
     (if !c.phone_numbers.isEmpty then ["  Phone(s): " ++ joinWith ", " c.phone_numbers] else []) ++
     (if !c.emails.isEmpty then ["  Email(s): " ++ joinWith ", " c.emails] else []) ++
     (if c.organization ≠ "" then ["  Org: " ++ c.organization] else []) ++
     (if c.source ≠ "" then ["  Source: " ++ c.source] else []))

structure Message where
  direction : String := ""
  sender : String := ""
  recipients : List String := []
  body : String := ""
  source : String := ""
  attachments : List String := []
  artifact_type : String := "chat_message"
deriving Repr

/-- `_serialise_message`. -/
def serialiseMessage (m : Message) : String :=
  joinWith "\n"
    ([upperStr m.artifact_type ++ " (" ++ m.direction ++ ")"] ++
     (if m.sender ≠ "" then ["  From: " ++ m.sender] else []) ++
     (if !m.recipients.isEmpty then ["  To: " ++ joinWith ", " m.recipients] else []) ++
     (if m.source ≠ "" then ["  App: " ++ m.source] else []) ++
     (if m.body ≠ "" then ["  Body: " ++ m.body] else []) ++
     (if !m.attachments.isEmpty then ["  Attachments: " ++ joinWith ", " m.attachments] else []))

/-! ### Query orchestrator (`forensiq/orchestrator/pipeline.py`)

External collaborators are oracle parameters: the vector retriever outcome
(an `Except` capturing the `try/except` around `self._retriever.query`),
the Neo4j neighbourhood and keyword-search reads, the page store contents,
and the two generative backends. Vector scores are floats in the source;
they are carried opaquely as their rendered string and never interpreted.
The pipeline returns the `QueryResult`, the updated cache table, and
whether the primary generative backend (`generate`) was invoked. -/

structure VectorHitInfo where
  page_id : String
  score : String
  artifact_type : String
  title : String
  body : String
  metadata : List (String × String)
deriving DecidableEq, Repr

structure NbrRec where
  relationship : String := ""
  labels : List String := []
  props : List (String × String) := []
deriving DecidableEq, Repr

/-- One `graph_context` entry. Step 3 stores the full entity dict here, of
which only `label` and `key_value` are ever read downstream. -/
structure GraphCtxEntry where
  entLabel : String
  entKeyValue : String
  neighbours : List NbrRec
deriving DecidableEq, Repr

structure QueryResult where
  query : String
  answer : String
  source : String
  vector_hits : List VectorHitInfo
  graph_context : List GraphCtxEntry
  cache_key : String
deriving DecidableEq, Repr

/-- One row of the direct keyword-search Cypher read. -/
structure SearchRec where
  src_labels : List String := []
  src_props : List (String × String) := []
  rel_type : String := ""
  tgt_labels : List String := []
  tgt_props : List (String × String) := []
deriving DecidableEq, Repr

/-- Step 2 with its `try/except`: a backend failure leaves the initial
empty hit list in place. -/
def retrievedHits (r : Except String (List (FPage × String))) : List (FPage × String) :=
  match r with
  | .ok hs => hs
  | .error _ => []

def mkHitInfo (p : FPage × String) : VectorHitInfo :=
  { page_id := p.1.page_id, score := p.2, artifact_type := p.1.artifact_type,
    title := p.1.title, body := p.1.body, metadata := p.1.metadata }

def entSeenKey (e : Entity) : String := e.label ++ ":" ++ e.key_value

/-- Inner loop of step 3 over the entities of one page, threading `seen_keys`. -/
def expandEnts (nbrOracle : Entity → Nat → List NbrRec) (depth : Nat) :
    List Entity → List String → List GraphCtxEntry × List String
  | [], seen => ([], seen)
  | e :: es, seen =>
    if seen.contains (entSeenKey e) then expandEnts nbrOracle depth es seen
    else
      let nbrs := nbrOracle e depth
      let (ctxs, seen') := expandEnts nbrOracle depth es (seen ++ [entSeenKey e])
      (if !nbrs.isEmpty then ⟨e.label, e.key_value, nbrs⟩ :: ctxs else ctxs, seen')

def expandPages (nbrOracle : Entity → Nat → List NbrRec) (depth : Nat) :
    List FPage → List String → List GraphCtxEntry
  | [], _ => []
  | pg :: rest, seen =>
    let (ctxs, seen') := expandEnts nbrOracle depth (extract_entities pg) seen
    ctxs ++ expandPages nbrOracle depth rest seen'

/-- Step 3: re-extract entities of the first three hits and collect
non-empty neighbourhoods. -/
def graphExpand (nbrOracle : Entity → Nat → List NbrRec) (depth : Nat)
    (hits : List FPage) : List GraphCtxEntry :=
  expandPages nbrOracle depth (hits.take 3) []

/-- Word characters for the `\b` boundaries of `\b[A-Za-z]{3,}\b`. -/
def isWordChar (c : Char) : Bool := c.isAlpha || c.isDigit || c = '_'

/-- `findall` of `\b[A-Za-z]{3,}\b`: maximal alphabetic runs of length at
least three whose two boundary characters are not word characters. `acc`
holds the current run reversed, `startOk` records whether the run started
at a boundary, `prevW` whether the previous character is a word character. -/
def alphaTermsAux : List Char → List Char → Bool → Bool → List String
  | [], acc, startOk, _ =>
    if !acc.isEmpty && startOk && decide (3 ≤ acc.length) then [String.mk acc.reverse] else []
  | c :: cs, acc, startOk, prevW =>
    if c.isAlpha then
      alphaTermsAux cs (c :: acc) (if acc.isEmpty then !prevW else startOk) prevW
    else
      (if !acc.isEmpty && startOk && decide (3 ≤ acc.length) && !isWordChar c then
        [String.mk acc.reverse]
      else []) ++ alphaTermsAux cs [] true (isWordChar c)

def alphaTerms (s : String) : List String := alphaTermsAux s.data [] true false

/-- The stop set of the direct-graph-search fallback (step 3b). -/
def pipelineStopSet : List String :=
  ["the", "and", "what", "who", "where", "how", "when", "are", "was", "were",
   "from", "with", "about", "that", "this", "have", "does", "did", "for",
   "any", "all", "between", "which", "into", "than", "been"]

def keywordTerms (text : String) : List String :=
  (alphaTerms (lowerStr text)).filter (fun w => !pipelineStopSet.contains w)

/-- Step 3b: probe up to three query terms against node name/text. -/
def keywordSearchCtx (searchOracle : String → List SearchRec) (text : String) :
    List GraphCtxEntry :=
  ((keywordTerms text).take 3).flatMap (fun term =>
    (searchOracle term).map (fun rec =>
      { entLabel := rec.src_labels.headD "Unknown",
        entKeyValue := metaGet rec.src_props "name" term,
        neighbours :=
          [{ relationship := rec.rel_type, labels := rec.tgt_labels,
             props := rec.tgt_props }] }))

def strTake (n : Nat) (s : String) : String := String.mk (s.data.take n)

/-- CPython iterates `page_ids_to_fetch` (a set) in an unspecified order;
the model fixes first-insertion order. No claim depends on it. -/
def dedupKeepFirst : List String → List String → List String
  | [], _ => []
  | x :: xs, seen =>
    if seen.contains x then dedupKeepFirst xs seen
    else x :: dedupKeepFirst xs (seen ++ [x])

def isPageIdLike (s : String) : Bool := s.length = 16 && s.data.all Char.isAlphanum

def hydrationRawIds (ctxs : List GraphCtxEntry) : List String :=
  ctxs.flatMap (fun ctx =>
    (ctx.neighbours.filterMap (fun nbr =>
      let pid := metaGet nbr.props "page_id" ""
      if pid ≠ "" && nbr.labels.contains "Page" then some pid else none)) ++
    (if isPageIdLike ctx.entKeyValue then [ctx.entKeyValue] else []))

/-- `pages_by_id` dict comprehension: a later page with the same id wins. -/
def lookupPageLast (pages : List FPage) (pid : String) : Option FPage :=
  pages.reverse.find? (fun p => p.page_id == pid)

/-- Step 3c: reattach full page bodies (first 15 ids, bodies truncated to
1200 characters) as a trailing `_HydratedPages` entry. -/
def hydrateCtx (storePages : List FPage) (ctxs : List GraphCtxEntry) :
    List GraphCtxEntry :=
  if ctxs.isEmpty then ctxs
  else
    let ids := (dedupKeepFirst (hydrationRawIds ctxs) []).take 15
    let hydrated := ids.filterMap (fun pid =>
      match lookupPageLast storePages pid with
      | some page =>
        some ({ props := [("page_id", pid), ("artifact_type", page.artifact_type),
                          ("title", page.title), ("body", strTake 1200 page.body)] } : NbrRec)
      | none => none)
    if hydrated.isEmpty then ctxs
    else ctxs ++ [⟨"_HydratedPages", "page_content", hydrated⟩]

/-- `_format_rag_context`. The exact Python `repr` text of neighbour label
lists and property dicts is rendered in a simplified comma-joined form
(property values were already abstracted to strings); no claim reads the
assembled context text. -/
def formatRagContext (hits : List VectorHitInfo) (ctxs : List GraphCtxEntry) : String :=
  let hitParts :=
    if !hits.isEmpty then
      ["### Retrieved Pages (semantic search)"] ++
      (hits.take 8).enum.map (fun p =>
        "\n**Page " ++ toString (p.1 + 1) ++ "** (" ++ p.2.artifact_type ++
        ", score=" ++ p.2.score ++ ")\n" ++ strTake 800 p.2.body)
    else []
  let hydrPages := (ctxs.filter (fun c => c.entLabel == "_HydratedPages")).flatMap
    (fun c => c.neighbours)
  let graphEntries := ctxs.filter (fun c => !(c.entLabel == "_HydratedPages"))
  let hydrParts :=
    if !hydrPages.isEmpty then
      ["\n### Forensic Evidence (page content from related entities)"] ++
      (hydrPages.take 12).enum.map (fun p =>
        "\n**Evidence " ++ toString (p.1 + 1) ++ "** [" ++
        metaGet p.2.props "artifact_type" "?" ++ "] " ++
        metaGet p.2.props "title" "" ++ "\n" ++ metaGet p.2.props "body" "")
    else []
  let graphParts :=
    if !graphEntries.isEmpty then
      ["\n### Graph Context (entity relationships)"] ++
      (graphEntries.take 15).flatMap (fun ctx =>
        ("\n**" ++ ctx.entLabel ++ "** = " ++ ctx.entKeyValue) ::
        (ctx.neighbours.take 5).map (fun nbr =>
          "  → " ++ joinWith ", " nbr.labels ++ " : " ++
          joinWith ", " (nbr.props.map (fun kv => kv.1 ++ "=" ++ kv.2))))
    else []
  let parts := hitParts ++ hydrParts ++ graphParts
  if parts.isEmpty then "(No relevant evidence found in RAG systems.)"
  else joinWith "\n" parts

structure PipelineEnv where
  retr : Except String (List (FPage × String))
  nbrOracle : Entity → Nat → List NbrRec
  searchOracle : String → List SearchRec
  storePages : List FPage
  llmGenerate : String → String → String
  llmReframe : String → String → String
  now : String

/-- `ForensIQPipeline.query`. The retriever `k` parameter is absorbed into
the retrieval oracle. The returned Boolean records whether the primary
generative backend was called. -/
def queryPipeline (env : PipelineEnv) (cache : CacheMap) (text : String)
    (graphDepth : Nat) (includeGraph skipCache skipLlm : Bool) :
    QueryResult × CacheMap × Bool :=
  let cacheRes := if skipCache then (none, cache) else cacheLookup cache text
  match cacheRes with
  | (some e, cache1) =>
    -- Cache hit: `cached.get("cache_key", "")` is always empty because
    -- `store` records no such field.
    if skipLlm then
      (⟨text, e.response, "cache", [], [], ""⟩, cache1, false)
    else
      (⟨text, env.llmReframe text e.response, "cache+openrouter", [], [], ""⟩, cache1, false)
  | (none, cache1) =>
    let hits := retrievedHits env.retr
    let vectorHits := hits.map mkHitInfo
    let ctx1 :=
      if includeGraph && !hits.isEmpty then
        graphExpand env.nbrOracle graphDepth (hits.map Prod.fst)
      else []
    let ctx2 :=
      if includeGraph && hits.isEmpty then keywordSearchCtx env.searchOracle text
      else ctx1
    let ctx3 := hydrateCtx env.storePages ctx2
    let rag := formatRagContext vectorHits ctx3
    let hasEvidence := !vectorHits.isEmpty || !ctx3.isEmpty
    let (answer, source, llmCalled) :=
      if !hasEvidence then
        (("No matching records found in the ingested device data." : String),
         ("system" : String), false)
      else if skipLlm then (rag, ("rag_only" : String), false)
      else (env.llmGenerate text rag, ("gemini" : String), true)
    if !skipCache && answer ≠ "" then
      let (key, cache2) := cacheStore cache1 text answer (strTake 500 rag) env.now
      (⟨text, answer, source, vectorHits, ctx3, key⟩, cache2, llmCalled)
    else
      (⟨text, answer, source, vectorHits, ctx3, ""⟩, cache1, llmCalled)

/-- `fingerprint` of a prompt: the composition the cache uses as its index. -/
def fingerprint (p : String) : String := cache_key (extract_keywords p)

/-! ### Order properties of the keyword sort relation -/

lemma charToNat_inj {a b : Char} (h : a.toNat = b.toNat) : a = b := by
  rw [← Char.ofNat_toNat a, ← Char.ofNat_toNat b, h]

lemma listCharLe_total : ∀ x y, listCharLe x y = true ∨ listCharLe y x = true
  | [], _ => Or.inl rfl
  | _ :: _, [] => Or.inr rfl
  | a :: as, b :: bs => by
    by_cases hab : a = b
    · subst hab
      simpa only [listCharLe, if_pos rfl] using listCharLe_total as bs
    · have hba : b ≠ a := fun h => hab h.symm
      have hne : a.toNat ≠ b.toNat := fun h => hab (charToNat_inj h)
      simp only [listCharLe, if_neg hab, if_neg hba, decide_eq_true_eq]
      omega

lemma listCharLe_trans :
    ∀ x y z, listCharLe x y = true → listCharLe y z = true → listCharLe x z = true
  | [], _, _, _, _ => rfl
  | _ :: _, [], _, h, _ => by simp [listCharLe] at h
  | _ :: _, _ :: _, [], _, h => by simp [listCharLe] at h
  | a :: as, b :: bs, c :: cs, h1, h2 => by
    by_cases hab : a = b <;> by_cases hbc : b = c
    · subst hab; subst hbc
      simp only [listCharLe, if_pos rfl] at h1 h2 ⊢
      exact listCharLe_trans as bs cs h1 h2
    · subst hab
      simpa only [listCharLe, if_neg hbc] using h2
    · subst hbc
      simpa only [listCharLe, if_neg hab] using h1
    · simp only [listCharLe, if_neg hab, if_neg hbc, decide_eq_true_eq] at h1 h2
      by_cases hac : a = c
      · subst hac; omega
      · simp only [listCharLe, if_neg hac, decide_eq_true_eq]
        omega

lemma listCharLe_antisymm :
    ∀ x y, listCharLe x y = true → listCharLe y x = true → x = y
  | [], [], _, _ => rfl
  | [], _ :: _, _, h => by simp [listCharLe] at h
  | _ :: _, [], h, _ => by simp [listCharLe] at h
  | a :: as, b :: bs, h1, h2 => by
    by_cases hab : a = b
    · subst hab
      simp only [listCharLe, if_pos rfl] at h1 h2
      rw [listCharLe_antisymm as bs h1 h2]
    · exfalso
      have hba : b ≠ a := fun h => hab h.symm
      simp only [listCharLe, if_neg hab, if_neg hba, decide_eq_true_eq] at h1 h2
      omega

instance : IsTrans String strLeR :=
  ⟨fun a b c h1 h2 => listCharLe_trans a.data b.data c.data h1 h2⟩

instance : IsTotal String strLeR :=
  ⟨fun a b => listCharLe_total a.data b.data⟩

instance : IsAntisymm String strLeR := by
  refine ⟨fun a b h1 h2 => ?_⟩
  cases a with
  | mk da =>
    cases b with
    | mk db => exact congrArg String.mk (listCharLe_antisymm da db h1 h2)

/-- The keyword list depends only on the set of regex tokens of the
lowercased prompt. -/
lemma extract_keywords_eq_of_tokenSet (p q : String)
    (h : (findTokens (lowerStr p)).toFinset = (findTokens (lowerStr q)).toFinset) :
    extract_keywords p = extract_keywords q := by
  have hmem : ∀ w, w ∈ findTokens (lowerStr p) ↔ w ∈ findTokens (lowerStr q) := by
    intro w
    rw [← List.mem_toFinset, ← List.mem_toFinset, h]
  unfold extract_keywords
  apply List.eq_of_perm_of_sorted ?_ (List.sorted_insertionSort _ _)
    (List.sorted_insertionSort _ _)
  refine (List.perm_insertionSort _ _).trans
    (List.Perm.trans ?_ (List.perm_insertionSort _ _).symm)
  rw [List.perm_ext_iff_of_nodup (List.nodup_dedup _) (List.nodup_dedup _)]
  intro w
  simp only [List.mem_dedup, List.mem_filter, hmem]

/-! ### Cache table lemmas -/

lemma mapGet_mapSet (m : CacheMap) (k : String) (v : CacheEntry) (k2 : String) :
    mapGet (mapSet m k v) k2 = if k = k2 then some v else mapGet m k2 := by
  induction m with
  | nil =>
    by_cases h : k = k2 <;> simp [mapSet, mapGet, h]
  | cons kv rest ih =>
    obtain ⟨k', v'⟩ := kv
    by_cases hk : k' = k
    · subst hk
      by_cases h2 : k' = k2 <;> simp [mapSet, mapGet, h2]
    · by_cases h2 : k' = k2
      · subst h2
        have : ¬k = k' := fun h => hk h.symm
        simp [mapSet, hk, mapGet, this]
      · simp [mapSet, hk, mapGet, h2, ih]

lemma mem_keys_mapSet (m : CacheMap) (k : String) (v : CacheEntry) (k2 : String) :
    k2 ∈ (mapSet m k v).map Prod.fst ↔ k2 ∈ m.map Prod.fst ∨ k2 = k := by
  induction m with
  | nil => simp [mapSet, eq_comm]
  | cons kv rest ih =>
    obtain ⟨k', v'⟩ := kv
    by_cases hk : k' = k
    · subst hk
      simp only [mapSet, if_true, eq_self_iff_true, List.map_cons, List.mem_cons]
      tauto
    · simp only [mapSet, if_neg hk, List.map_cons, List.mem_cons, ih]
      tauto

lemma mapKeys_mapSet_nodup (m : CacheMap) (k : String) (v : CacheEntry)
    (h : (m.map Prod.fst).Nodup) : ((mapSet m k v).map Prod.fst).Nodup := by
  induction m with
  | nil => simp [mapSet]
  | cons kv rest ih =>
    obtain ⟨k', v'⟩ := kv
    simp only [List.map_cons, List.nodup_cons] at h
    by_cases hk : k' = k
    · subst hk
      simp only [mapSet, if_true, eq_self_iff_true, List.map_cons, List.nodup_cons]
      exact h
    · simp only [mapSet, if_neg hk, List.map_cons, List.nodup_cons]
      refine ⟨fun hmem => ?_, ih h.2⟩
      rcases (mem_keys_mapSet rest k v k').mp hmem with h1 | h1
      · exact h.1 h1
      · exact hk h1

lemma mapGet_eq_none_of_not_mem (m : CacheMap) (k : String)
    (h : k ∉ m.map Prod.fst) : mapGet m k = none := by
  induction m with
  | nil => rfl
  | cons kv rest ih =>
    obtain ⟨k', v'⟩ := kv
    simp only [List.map_cons, List.mem_cons] at h
    push_neg at h
    have : ¬k' = k := fun hh => h.1 hh.symm
    simp [mapGet, this, ih h.2]

lemma mapGet_mapDelete_self (m : CacheMap) (k : String)
    (h : (m.map Prod.fst).Nodup) : mapGet (mapDelete m k) k = none := by
  induction m with
  | nil => rfl
  | cons kv rest ih =>
    obtain ⟨k', v'⟩ := kv
    simp only [List.map_cons, List.nodup_cons] at h
    by_cases hk : k' = k
    · subst hk
      simp only [mapDelete, if_pos rfl]
      exact mapGet_eq_none_of_not_mem rest k' h.1
    · simp [mapDelete, hk, mapGet, ih h.2]

/-- `lookup` never removes a key: it either leaves the table unchanged or
upserts the hit-bumped entry at an existing key. -/
lemma cacheLookup_preserves_key (m : CacheMap) (q k : String)
    (h : (mapGet m k).isSome) : (mapGet ((cacheLookup m q).2) k).isSome := by
  unfold cacheLookup
  by_cases hkw : (extract_keywords q).isEmpty
  · simpa [hkw] using h
  · simp only [hkw, Bool.false_eq_true, if_neg, ite_false]
    cases hg : mapGet m (cachePrefix ++ cache_key (extract_keywords q)) with
    | none => simpa [hg] using h
    | some e =>
      simp only [hg, mapGet_mapSet]
      by_cases hk2 : cachePrefix ++ cache_key (extract_keywords q) = k
      · simp [hk2]
      · simpa [hk2] using h

/-- Looking a prompt up in a table whose entry sits at exactly the key of
the prompt: the entry comes back hit-bumped and is written back. -/
lemma cacheLookup_after_set (m : CacheMap) (p : String) (e : CacheEntry)
    (hkw : (extract_keywords p).isEmpty = false) :
    cacheLookup (mapSet m (cachePrefix ++ cache_key (extract_keywords p)) e) p =
      (some { e with hit_count := e.hit_count + 1 },
       mapSet (mapSet m (cachePrefix ++ cache_key (extract_keywords p)) e)
         (cachePrefix ++ cache_key (extract_keywords p))
         { e with hit_count := e.hit_count + 1 }) := by
  simp [cacheLookup, hkw, mapGet_mapSet]

/-! ### Claim theorems -/

/-- C3: the cache fingerprint (`cache_key` of `extract_keywords`) is a pure
function of the prompt's normalized, deduplicated, sorted keyword set: any
two prompts whose lowercased texts carry the same set of tokenizer words
(in particular, prompts differing only in word order, duplication or letter
case) get equal fingerprints; concretely the two quoted reorderings agree
and the called/emailed prompts differ. -/
theorem c3_fingerprint_keyword_set :
    (∀ p q : String,
      (findTokens (lowerStr p)).toFinset = (findTokens (lowerStr q)).toFinset →
      fingerprint p = fingerprint q) ∧
    fingerprint "Who called Bob yesterday?" = fingerprint "yesterday who called bob" ∧
    fingerprint "Who called Bob?" ≠ fingerprint "Who emailed Bob?" :=
  ⟨fun p q h => congrArg cache_key (extract_keywords_eq_of_tokenSet p q h),
   by decide, by decide⟩

/-- Witness for C3 at a concrete pair of reworded prompts. -/
theorem c3_fingerprint_keyword_set_witness :
    fingerprint "called Bob CALLED bob who" = fingerprint "who called bob" :=
  c3_fingerprint_keyword_set.1 "called Bob CALLED bob who" "who called bob" (by decide)

/-- C5 counterexample: for the prompt "it" (all tokens are stop words, so
the keyword set is empty) `lookup` returns `None` immediately after
`store("it", "42")`, contradicting the claim made for every prompt. -/
theorem c5_counterexample_stopword_prompt :
    (cacheLookup (cacheStore [] "it" "42" "" "t0").2 "it").1 = none := by decide

/-- C5 (amended): for every prompt whose extracted keyword set is nonempty,
after `store(p, resp)` a `lookup(p)` returns the entry with that response
and `hit_count = 1`, and a second `lookup(p)` returns `hit_count = 2`. -/
theorem c5_store_lookup_hit_counts (m : CacheMap) (p resp summ t : String)
    (h : extract_keywords p ≠ []) :
    (∃ e, (cacheLookup (cacheStore m p resp summ t).2 p).1 = some e ∧
        e.response = resp ∧ e.hit_count = 1) ∧
    (∃ e2, (cacheLookup (cacheLookup (cacheStore m p resp summ t).2 p).2 p).1 = some e2 ∧
        e2.response = resp ∧ e2.hit_count = 2) := by
  have hkw : (extract_keywords p).isEmpty = false := by
    cases hk : extract_keywords p with
    | nil => exact absurd hk h
    | cons a l => rfl
  have hstore : (cacheStore m p resp summ t).2 =
      mapSet m (cachePrefix ++ cache_key (extract_keywords p))
        { prompt := p, keywords := extract_keywords p, response := resp,
          rag_context_summary := summ, created_at := t, hit_count := 0 } := rfl
  rw [hstore]
  rw [cacheLookup_after_set m p _ hkw]
  constructor
  · exact ⟨_, rfl, rfl, rfl⟩
  · rw [cacheLookup_after_set _ p _ hkw]
    exact ⟨_, rfl, rfl, rfl⟩

/-- Witness for C5 at the prompt "called bob". -/
theorem c5_store_lookup_hit_counts_witness :
    extract_keywords "called bob" ≠ [] ∧
    ((∃ e, (cacheLookup (cacheStore [] "called bob" "42" "" "t0").2 "called bob").1 = some e ∧
        e.response = "42" ∧ e.hit_count = 1) ∧
     (∃ e2, (cacheLookup (cacheLookup (cacheStore [] "called bob" "42" "" "t0").2
          "called bob").2 "called bob").1 = some e2 ∧
        e2.response = "42" ∧ e2.hit_count = 2)) :=
  ⟨by decide, c5_store_lookup_hit_counts [] "called bob" "42" "" "t0" (by decide)⟩

/-- C10: a prompt with an empty keyword set is stored under the
empty-keyword fingerprint but can never be read back: `lookup` of it (or of
any other empty-keyword prompt) returns `None`, `lookup` never removes the
entry, while `invalidate` of the prompt and `flush_all` do remove it. -/
theorem c10_empty_keyword_entries (m : CacheMap) (p resp summ t : String)
    (hnd : (m.map Prod.fst).Nodup) (hkw : extract_keywords p = []) :
    (cacheLookup (cacheStore m p resp summ t).2 p).1 = none ∧
    (∃ e, mapGet (cacheStore m p resp summ t).2 (cachePrefix ++ cache_key []) = some e ∧
        e.response = resp ∧ e.hit_count = 0) ∧
    (∀ q, extract_keywords q = [] →
        (cacheLookup (cacheStore m p resp summ t).2 q).1 = none) ∧
    (∀ q, (mapGet ((cacheLookup (cacheStore m p resp summ t).2 q).2)
        (cachePrefix ++ cache_key [])).isSome) ∧
    mapGet (cacheInvalidate (cacheStore m p resp summ t).2 p).2
        (cachePrefix ++ cache_key []) = none ∧
    cacheFlushAll (cacheStore m p resp summ t).2 = [] := by
  have hstore : (cacheStore m p resp summ t).2 =
      mapSet m (cachePrefix ++ cache_key [])
        { prompt := p, keywords := [], response := resp,
          rag_context_summary := summ, created_at := t, hit_count := 0 } := by
    simp [cacheStore, hkw]
  have hget : mapGet (cacheStore m p resp summ t).2 (cachePrefix ++ cache_key []) =
      some { prompt := p, keywords := [], response := resp,
             rag_context_summary := summ, created_at := t, hit_count := 0 } := by
    rw [hstore, mapGet_mapSet, if_pos rfl]
  refine ⟨?_, ⟨_, hget, rfl, rfl⟩, ?_, ?_, ?_, rfl⟩
  · simp [cacheLookup, hkw]
  · intro q hq
    simp [cacheLookup, hq]
  · intro q
    exact cacheLookup_preserves_key _ q _ (by rw [hget]; rfl)
  · have hnd' : (((cacheStore m p resp summ t).2).map Prod.fst).Nodup := by
      rw [hstore]
      exact mapKeys_mapSet_nodup m _ _ hnd
    have : cacheInvalidate (cacheStore m p resp summ t).2 p =
        ((mapGet (cacheStore m p resp summ t).2 (cachePrefix ++ cache_key [])).isSome,
         mapDelete (cacheStore m p resp summ t).2 (cachePrefix ++ cache_key [])) := by
      simp [cacheInvalidate, hkw]
    rw [this]
    exact mapGet_mapDelete_self _ _ hnd'

/-- Witness for C10 at the prompt "it is" with an empty initial table. -/
theorem c10_empty_keyword_entries_witness :
    (cacheLookup (cacheStore [] "it is" "42" "" "t0").2 "it is").1 = none ∧
    (∃ e, mapGet (cacheStore [] "it is" "42" "" "t0").2 (cachePrefix ++ cache_key []) = some e ∧
        e.response = "42" ∧ e.hit_count = 0) ∧
    (∀ q, extract_keywords q = [] →
        (cacheLookup (cacheStore [] "it is" "42" "" "t0").2 q).1 = none) ∧
    (∀ q, (mapGet ((cacheLookup (cacheStore [] "it is" "42" "" "t0").2 q).2)
        (cachePrefix ++ cache_key [])).isSome) ∧
    mapGet (cacheInvalidate (cacheStore [] "it is" "42" "" "t0").2 "it is").2
        (cachePrefix ++ cache_key []) = none ∧
    cacheFlushAll (cacheStore [] "it is" "42" "" "t0").2 = [] :=
  c10_empty_keyword_entries [] "it is" "42" "" "t0" (by decide) (by decide)

/-- Invariant of the chunking loop: the running token counter is the sum of
the buffered records, and the buffer is empty, within budget, or a single
record. Every emitted page then respects the budget or consists of exactly
one record, and the pages partition the input records in order. -/
lemma batchGoAux_spec (tok : String → Nat) (a s e : String) (maxT : Nat) :
    ∀ (items buf : List String) (curTok pn : Nat),
      curTok = (buf.map tok).sum →
      (buf = [] ∨ curTok ≤ maxT ∨ ∃ x, buf = [x]) →
      (∀ pr ∈ batchGoAux tok a s e maxT items buf curTok pn,
          pr.1.token_count ≤ maxT ∨
          ∃ x, pr.2 = [x] ∧ pr.1.body = x ∧ pr.1.token_count = tok x) ∧
      (batchGoAux tok a s e maxT items buf curTok pn).flatMap Prod.snd = buf ++ items := by
  intro items
  induction items with
  | nil =>
    intro buf curTok pn hsum hinv
    cases buf with
    | nil => simp [batchGoAux]
    | cons b bs =>
      constructor
      · intro pr hpr
        simp only [batchGoAux, List.isEmpty_cons, if_neg, Bool.false_eq_true,
          ite_false, List.mem_singleton] at hpr
        subst hpr
        rcases hinv with h | h | ⟨x, hx⟩
        · exact absurd h (List.cons_ne_nil b bs)
        · exact Or.inl h
        · refine Or.inr ⟨x, hx, ?_, ?_⟩
          · simp [mkChunkPage, hx, joinWith]
          · simp [mkChunkPage, hsum, hx, joinWith]
      · simp [batchGoAux]
  | cons item rest ih =>
    intro buf curTok pn hsum hinv
    by_cases hc : (decide (maxT < curTok + tok item) && !buf.isEmpty) = true
    · have hc' := hc
      rw [Bool.and_eq_true, decide_eq_true_eq, Bool.not_eq_true'] at hc'
      obtain ⟨hover, hfalse⟩ := hc'
      have hne : buf ≠ [] := fun hb => by subst hb; simp at hfalse
      have hrec := ih [item] (tok item) (pn + 1) (by simp) (Or.inr (Or.inr ⟨item, rfl⟩))
      constructor
      · intro pr hpr
        simp only [batchGoAux, hc, if_true, ite_true, List.mem_cons] at hpr
        rcases hpr with rfl | hpr
        · rcases hinv with h | h | ⟨x, hx⟩
          · exact absurd h hne
          · exact Or.inl h
          · refine Or.inr ⟨x, hx, ?_, ?_⟩
            · simp [mkChunkPage, hx, joinWith]
            · simp [mkChunkPage, hsum, hx, joinWith]
        · exact hrec.1 pr hpr
      · simp only [batchGoAux, hc, if_true, ite_true, List.flatMap_cons]
        rw [hrec.2]
        simp
    · have hc' := hc
      rw [Bool.and_eq_true, not_and_or, Bool.not_eq_true, decide_eq_false_iff_not] at hc'
      have hrec := ih (buf ++ [item]) (curTok + tok item) pn
        (by simp [hsum])
        (by
          rcases hc' with h | h
          · exact Or.inr (Or.inl (Nat.le_of_not_lt h))
          · cases buf with
            | nil => exact Or.inr (Or.inr ⟨item, rfl⟩)
            | cons b bs => exact absurd h (by simp))
      constructor
      · intro pr hpr
        simp only [batchGoAux, hc, Bool.false_eq_true, if_neg, ite_false] at hpr
        exact hrec.1 pr hpr
      · simp only [batchGoAux, hc, Bool.false_eq_true, if_neg, ite_false]
        rw [hrec.2]
        simp

/-- C2: every page emitted by `_batch_into_pages` has `token_count ≤ N`
unless it consists of a single record whose own token count is recorded,
and the emitted pages partition the input records in order, so no record is
ever split across two pages. -/
theorem c2_chunker_token_budget (tok : String → Nat) (a s e : String)
    (startPage maxT : Nat) (items : List String) :
    (∀ page ∈ batchIntoPages tok a s e startPage maxT items,
        page.token_count ≤ maxT ∨
        ∃ x ∈ items, page.body = x ∧ page.token_count = tok x) ∧
    (batchIntoPagesAux tok a s e startPage maxT items).flatMap Prod.snd = items := by
  have h := batchGoAux_spec tok a s e maxT items [] 0 startPage rfl (Or.inl rfl)
  have haux : (batchIntoPagesAux tok a s e startPage maxT items).flatMap Prod.snd = items := by
    have := h.2
    simpa [batchIntoPagesAux] using this
  refine ⟨?_, haux⟩
  intro page hpage
  simp only [batchIntoPages, List.mem_map] at hpage
  obtain ⟨pr, hpr, rfl⟩ := hpage
  rcases h.1 pr hpr with hle | ⟨x, hx2, hbody, htok⟩
  · exact Or.inl hle
  · refine Or.inr ⟨x, ?_, hbody, htok⟩
    have hx : x ∈ (batchIntoPagesAux tok a s e startPage maxT items).flatMap Prod.snd :=
      List.mem_flatMap.mpr ⟨pr, hpr, by simp [hx2]⟩
    rwa [haux] at hx

/-- Witness for C2: chunking two records of sizes 3 and 2 under budget 5
yields the single in-budget page containing both. -/
theorem c2_chunker_token_budget_witness :
    ({ extraction_id := "e1", artifact_type := "contact", source_section := "S",
       page_number := 1, title := "S (page 1)", body := "abc\n\nde",
       token_count := 5 } : FPage).token_count ≤ 5 ∨
    ∃ x ∈ ["abc", "de"],
      ({ extraction_id := "e1", artifact_type := "contact", source_section := "S",
         page_number := 1, title := "S (page 1)", body := "abc\n\nde",
         token_count := 5 } : FPage).body = x ∧
      ({ extraction_id := "e1", artifact_type := "contact", source_section := "S",
         page_number := 1, title := "S (page 1)", body := "abc\n\nde",
         token_count := 5 } : FPage).token_count = String.length x :=
  (c2_chunker_token_budget String.length "contact" "S" "e1" 1 5 ["abc", "de"]).1 _
    (by decide)

lemma filter_relType_mentions (pid : String) (ents : List Entity) (t : String)
    (ht : ("MENTIONED_IN" : String) ≠ t) :
    (ents.map (fun e => mentionRel e pid)).filter (fun r => r.rel_type == t) = [] := by
  rw [List.filter_eq_nil_iff]
  intro r hr
  obtain ⟨e, _, rfl⟩ := List.mem_map.mp hr
  simpa [mentionRel] using ht

lemma filter_relType_pairs (persons phones emails orgs : List Entity) (t : String)
    (h1 : ("HAS_PHONE" : String) ≠ t) (h2 : ("HAS_EMAIL" : String) ≠ t)
    (h3 : ("BELONGS_TO_ORG" : String) ≠ t) :
    (persons.flatMap (fun p =>
      phones.map (hasPhoneRel p) ++ emails.map (hasEmailRel p) ++
      orgs.map (belongsToOrgRel p))).filter (fun r => r.rel_type == t) = [] := by
  rw [List.filter_eq_nil_iff]
  intro r hr
  obtain ⟨p, _, hmem⟩ := List.mem_flatMap.mp hr
  rcases List.mem_append.mp hmem with hm | hm
  · rcases List.mem_append.mp hm with hm2 | hm2
    · obtain ⟨q, _, rfl⟩ := List.mem_map.mp hm2
      simpa [hasPhoneRel] using h1
    · obtain ⟨q, _, rfl⟩ := List.mem_map.mp hm2
      simpa [hasEmailRel] using h2
  · obtain ⟨q, _, rfl⟩ := List.mem_map.mp hm
    simpa [belongsToOrgRel] using h3

/-- The MESSAGED and CALLED content of `_infer_relationships`, evaluated:
the mention and co-occurrence sections contribute neither type. -/
lemma inferRels_filter_eval (page : FPage) (ents : List Entity) :
    (inferRelationships page ents).filter (fun r => r.rel_type == "MESSAGED") =
      (if msgArtifactTypes.contains page.artifact_type then
        match ents.filter (fun e => e.label == "Person") with
        | p0 :: p1 :: _ => [messagedRel p0 p1]
        | _ => []
      else []) ∧
    (inferRelationships page ents).filter (fun r => r.rel_type == "CALLED") =
      (if page.artifact_type = "call_log" then
        match ents.filter (fun e => e.label == "Person") with
        | p0 :: p1 :: _ => [calledRel p0 p1]
        | _ => []
      else []) := by
  constructor
  · simp only [inferRelationships, List.filter_append,
      filter_relType_mentions page.page_id ents "MESSAGED" (by decide),
      filter_relType_pairs (ents.filter (fun e => e.label == "Person"))
        (ents.filter (fun e => e.label == "PhoneNumber"))
        (ents.filter (fun e => e.label == "EmailAddress"))
        (ents.filter (fun e => e.label == "Organization"))
        "MESSAGED" (by decide) (by decide) (by decide),
      List.nil_append]
    by_cases hcon : msgArtifactTypes.contains page.artifact_type = true <;>
      by_cases hcall : page.artifact_type = "call_log" <;>
      rcases hper : ents.filter (fun e => e.label == "Person") with _ | ⟨p0, _ | ⟨p1, r⟩⟩ <;>
      simp [hcon, hcall, hper, messagedRel, calledRel]
  · simp only [inferRelationships, List.filter_append,
      filter_relType_mentions page.page_id ents "CALLED" (by decide),
      filter_relType_pairs (ents.filter (fun e => e.label == "Person"))
        (ents.filter (fun e => e.label == "PhoneNumber"))
        (ents.filter (fun e => e.label == "EmailAddress"))
        (ents.filter (fun e => e.label == "Organization"))
        "CALLED" (by decide) (by decide) (by decide),
      List.nil_append]
    by_cases hcon : msgArtifactTypes.contains page.artifact_type = true <;>
      by_cases hcall : page.artifact_type = "call_log" <;>
      rcases hper : ents.filter (fun e => e.label == "Person") with _ | ⟨p0, _ | ⟨p1, r⟩⟩ <;>
      simp [hcon, hcall, hper, messagedRel, calledRel]

/-- C6: on a communication-type page, `_infer_relationships` emits exactly
one MESSAGED (message pages) or CALLED (call-log pages) edge — from the
first to the second resolved Person in extraction order — when at least two
Person candidates are present, and none otherwise; the opposite
communication edge type never appears on such a page. -/
theorem c6_comm_edges (page : FPage) (ents : List Entity) :
    (msgArtifactTypes.contains page.artifact_type = true →
      (inferRelationships page ents).filter (fun r => r.rel_type == "MESSAGED") =
        (match ents.filter (fun e => e.label == "Person") with
          | p0 :: p1 :: _ => [messagedRel p0 p1]
          | _ => []) ∧
      (inferRelationships page ents).filter (fun r => r.rel_type == "CALLED") = []) ∧
    (page.artifact_type = "call_log" →
      (inferRelationships page ents).filter (fun r => r.rel_type == "CALLED") =
        (match ents.filter (fun e => e.label == "Person") with
          | p0 :: p1 :: _ => [calledRel p0 p1]
          | _ => []) ∧
      (inferRelationships page ents).filter (fun r => r.rel_type == "MESSAGED") = []) := by
  obtain ⟨hm, hcal⟩ := inferRels_filter_eval page ents
  constructor
  · intro h
    have hnotcall : ¬page.artifact_type = "call_log" := by
      intro hc
      rw [hc] at h
      exact absurd h (by decide)
    rw [hm, hcal, if_pos h, if_neg hnotcall]
    exact ⟨rfl, rfl⟩
  · intro h
    have hnotmsg : ¬msgArtifactTypes.contains page.artifact_type = true := by
      rw [h]; decide
    rw [hm, hcal, if_pos h, if_neg hnotmsg]
    exact ⟨rfl, rfl⟩

/-- Witness for C6: a chat page with two Person candidates gets exactly the
one MESSAGED edge between them. -/
theorem c6_comm_edges_witness :
    (inferRelationships { page_id := "w6", artifact_type := "chat_message" }
        [personEntity "Ann", personEntity "Ben"]).filter
        (fun r => r.rel_type == "MESSAGED") =
      [messagedRel (personEntity "Ann") (personEntity "Ben")] ∧
    (inferRelationships { page_id := "w6", artifact_type := "chat_message" }
        [personEntity "Ann", personEntity "Ben"]).filter
        (fun r => r.rel_type == "CALLED") = [] := by
  have h := (c6_comm_edges { page_id := "w6", artifact_type := "chat_message" }
    [personEntity "Ann", personEntity "Ben"]).1 (by decide)
  have hp : ([personEntity "Ann", personEntity "Ben"].filter
      (fun e => e.label == "Person")) = [personEntity "Ann", personEntity "Ben"] := by
    simp [personEntity]
  rw [hp] at h
  exact h

/-! ### Idempotent node merging (for the cross-page entity resolution) -/

lemma countKey_pos_of_any (g : Graph) (L K V : String)
    (h : g.nodes.any (nodeMatchesKey L K V) = true) : 1 ≤ countKey g L K V := by
  obtain ⟨n, hn, hm⟩ := List.any_eq_true.mp h
  have : n ∈ g.nodes.filter (nodeMatchesKey L K V) := List.mem_filter.mpr ⟨hn, hm⟩
  have := List.length_pos.mpr (List.ne_nil_of_mem this)
  simpa [countKey] using this

lemma countKey_zero_of_not_any (g : Graph) (L K V : String)
    (h : ¬g.nodes.any (nodeMatchesKey L K V) = true) : countKey g L K V = 0 := by
  simp only [countKey, List.length_eq_zero, List.filter_eq_nil_iff]
  intro n hn hm
  exact h (List.any_eq_true.mpr ⟨n, hn, hm⟩)

/-- The props-update branch of `mergeNode` leaves every key count
unchanged (the key triple of a node is untouched). -/
lemma countKey_update_eq (nodes : List GraphNode) (f : GraphNode → GraphNode)
    (hf : ∀ n, (f n).label = n.label ∧ (f n).keyField = n.keyField ∧
      (f n).keyValue = n.keyValue) (L K V : String) :
    ((nodes.map f).filter (nodeMatchesKey L K V)).length =
      (nodes.filter (nodeMatchesKey L K V)).length := by
  induction nodes with
  | nil => rfl
  | cons n rest ih =>
    have hmatch : nodeMatchesKey L K V (f n) = nodeMatchesKey L K V n := by
      obtain ⟨h1, h2, h3⟩ := hf n
      simp [nodeMatchesKey, h1, h2, h3]
    simp only [List.map_cons, List.filter_cons, hmatch]
    cases nodeMatchesKey L K V n <;> simp [ih]

lemma countKey_mergeNode_other (g : Graph) (L K V : String)
    (ps : List (String × String)) (L2 K2 V2 : String)
    (hne : ¬(L = L2 ∧ K = K2 ∧ V = V2)) :
    countKey (mergeNode g L K V ps) L2 K2 V2 = countKey g L2 K2 V2 := by
  unfold mergeNode
  split
  · simpa [countKey] using
      countKey_update_eq g.nodes _
        (fun n => by by_cases hm : nodeMatchesKey L K V n = true <;> simp [hm]) L2 K2 V2
  · have hnm : nodeMatchesKey L2 K2 V2 (⟨L, K, V, mergeProps [] ps⟩ : GraphNode) = false := by
      by_contra hc
      rw [Bool.not_eq_false] at hc
      simp only [nodeMatchesKey, Bool.and_eq_true, beq_iff_eq] at hc
      exact hne ⟨hc.1.1, hc.1.2, hc.2⟩
    simp [countKey, List.filter_append, hnm]

lemma countKey_mergeNode_self (g : Graph) (L K V : String)
    (ps : List (String × String)) (h : countKey g L K V ≤ 1) :
    countKey (mergeNode g L K V ps) L K V = 1 := by
  unfold mergeNode
  split
  · rename_i hany
    have h1 := countKey_pos_of_any g L K V hany
    have heq := countKey_update_eq g.nodes
      (fun n => if nodeMatchesKey L K V n then { n with props := mergeProps n.props ps } else n)
      (fun n => by by_cases hm : nodeMatchesKey L K V n = true <;> simp [hm]) L K V
    simp only [countKey] at h h1 ⊢
    omega
  · rename_i hany
    have h0 : g.nodes.filter (nodeMatchesKey L K V) = [] := by
      rw [List.filter_eq_nil_iff]
      intro n hn hm
      exact hany (List.any_eq_true.mpr ⟨n, hn, hm⟩)
    have hnm : nodeMatchesKey L K V (⟨L, K, V, mergeProps [] ps⟩ : GraphNode) = true := by
      simp [nodeMatchesKey]
    simp [countKey, List.filter_append, h0, hnm]

lemma countKey_mergeNode_mono (g : Graph) (L K V : String)
    (ps : List (String × String)) (L2 K2 V2 : String) :
    countKey g L2 K2 V2 ≤ countKey (mergeNode g L K V ps) L2 K2 V2 := by
  unfold mergeNode
  split
  · simp only [countKey]
    rw [countKey_update_eq g.nodes _
      (fun n => by by_cases hm : nodeMatchesKey L K V n = true <;> simp [hm]) L2 K2 V2]
  · simp [countKey, List.filter_append]

/-- A batched UNWIND merge keeps a natural key unique, and makes it present
exactly once as soon as some item carries it. -/
lemma countKey_batchMergeNodes (L K : String) (items : List (String × List (String × String)))
    (V : String) :
    ∀ g : Graph, countKey g L K V ≤ 1 →
      countKey (batchMergeNodes g L K items) L K V ≤ 1 ∧
      countKey g L K V ≤ countKey (batchMergeNodes g L K items) L K V ∧
      (V ∈ items.map Prod.fst → countKey (batchMergeNodes g L K items) L K V = 1) := by
  induction items with
  | nil =>
    intro g h
    exact ⟨h, Nat.le_refl _, by simp⟩
  | cons it rest ih =>
    intro g h
    obtain ⟨v, ps⟩ := it
    have hstep : batchMergeNodes g L K ((v, ps) :: rest) =
        batchMergeNodes (mergeNode g L K v ps) L K rest := rfl
    by_cases hv : v = V
    · subst hv
      have hself := countKey_mergeNode_self g L K v ps h
      have hrec := ih (mergeNode g L K v ps) (le_of_eq hself)
      refine ⟨by rw [hstep]; exact hrec.1, ?_, fun _ => ?_⟩
      · rw [hstep]
        calc countKey g L K v ≤ 1 := h
          _ = countKey (mergeNode g L K v ps) L K v := hself.symm
          _ ≤ _ := hrec.2.1
      · rw [hstep]
        have hge : 1 ≤ countKey (batchMergeNodes (mergeNode g L K v ps) L K rest) L K v := by
          rw [← hself]
          exact hrec.2.1
        exact Nat.le_antisymm hrec.1 hge
    · have hne : ¬(L = L ∧ K = K ∧ v = V) := fun hc => hv hc.2.2
      have hother := countKey_mergeNode_other g L K v ps L K V hne
      have hrec := ih (mergeNode g L K v ps) (by rw [hother]; exact h)
      refine ⟨by rw [hstep]; exact hrec.1, ?_, fun hmem => ?_⟩
      · rw [hstep, ← hother]
        exact hrec.2.1
      · rw [hstep]
        apply hrec.2.2
        rcases (by simpa using hmem : V = v ∨ ∃ x, (V, x) ∈ rest) with hh | ⟨x, hx⟩
        · exact absurd hh.symm hv
        · exact List.mem_map.mpr ⟨(V, x), hx, rfl⟩

/-! ### Membership of extracted entities and their mention edges -/

lemma updFirstApp_preserves (pkg : String) (e : Entity) :
    ∀ l : List Entity, e ∈ l → e.label ≠ "App" → e ∈ updFirstApp l pkg := by
  intro l
  induction l with
  | nil => intro he _; cases he
  | cons a as ih =>
    intro he hl
    by_cases ha : a.label = "App"
    · simp only [updFirstApp, if_pos ha, List.mem_cons]
      rcases List.mem_cons.mp he with rfl | hm
      · exact absurd ha hl
      · exact Or.inr hm
    · simp only [updFirstApp, if_neg ha, List.mem_cons]
      rcases List.mem_cons.mp he with rfl | hm
      · exact Or.inl rfl
      · exact Or.inr (ih hm hl)

lemma updateLastApp_preserves (ents : List Entity) (pkg : String) (e : Entity)
    (he : e ∈ ents) (hl : e.label ≠ "App") : e ∈ updateLastApp ents pkg := by
  unfold updateLastApp
  rw [List.mem_reverse]
  exact updFirstApp_preserves pkg e _ (List.mem_reverse.mpr he) hl

lemma appLineApply_preserves (ents : List Entity) (line : String) (e : Entity)
    (he : e ∈ ents) (hl : e.label ≠ "App") : e ∈ appLineApply ents line := by
  unfold appLineApply
  dsimp only
  split_ifs <;>
    first
      | exact he
      | exact List.mem_append_left _ he
      | exact updateLastApp_preserves _ _ _ he hl
      | exact updateLastApp_preserves _ _ _ (List.mem_append_left _ he) hl

lemma appEnts_preserves (lines : List String) :
    ∀ (init : List Entity) (e : Entity), e ∈ init → e.label ≠ "App" →
      e ∈ lines.foldl appLineApply init := by
  induction lines with
  | nil => intro init e he _; exact he
  | cons line rest ih =>
    intro init e he hl
    exact ih (appLineApply init line) e (appLineApply_preserves init line e he hl) hl

/-- Every phone-regex match of a page body yields its PhoneNumber candidate
among the extracted entities, whatever the artifact type. -/
lemma phoneEntity_mem_extract (page : FPage) (m : String)
    (h : m ∈ phoneFindAll page.body.data) :
    phoneEntity m ∈ extract_entities page := by
  have hbase : phoneEntity m ∈
      (phoneFindAll page.body.data).map phoneEntity ++
      ((emailFindAll page.body.data).map emailEntity ++
       ((urlFindAll page.body.data).map urlEntity ++
        (coordsFindAll page.body.data).map (fun p => locationEntity p.1 p.2))) := by
    exact List.mem_append_left _ (List.mem_map_of_mem phoneEntity h)
  have hlabel : (phoneEntity m).label ≠ "App" := by simp [phoneEntity]
  unfold extract_entities
  split
  · exact List.mem_append_left _ (by simpa using hbase)
  · split
    · exact List.mem_append_left _ (by simpa using hbase)
    · split
      · exact List.mem_append_left _ (by simpa using hbase)
      · split
        · exact appEnts_preserves _ _ _ (by simpa using hbase) hlabel
        · split
          · exact List.mem_append_left _ (by simpa using hbase)
          · simpa using hbase

/-- Every extracted entity receives its MENTIONED_IN edge to the page. -/
lemma mentionRel_mem (page : FPage) (ents : List Entity) (e : Entity) (he : e ∈ ents) :
    mentionRel e page.page_id ∈ inferRelationships page ents := by
  unfold inferRelationships
  exact List.mem_append_left _ (List.mem_append_left _ (List.mem_append_left _
    (List.mem_map_of_mem (fun e => mentionRel e page.page_id) he)))

/-- C7: two pages mentioning the same phone number up to whitespace and
hyphen differences yield PhoneNumber candidates with identical
`(label, key_field, key_value)`; each candidate carries a MENTIONED_IN edge
to its own page, and merging any batch containing the shared key into a
graph where that key is not duplicated leaves exactly one node with it. -/
theorem c7_phone_resolution (p1 p2 : FPage) (m1 m2 : String)
    (h1 : m1 ∈ phoneFindAll p1.body.data) (h2 : m2 ∈ phoneFindAll p2.body.data)
    (hn : stripPhoneSeps m1 = stripPhoneSeps m2) :
    phoneEntity m1 ∈ extract_entities p1 ∧
    phoneEntity m2 ∈ extract_entities p2 ∧
    ((phoneEntity m1).label, (phoneEntity m1).key_field, (phoneEntity m1).key_value) =
      ((phoneEntity m2).label, (phoneEntity m2).key_field, (phoneEntity m2).key_value) ∧
    mentionRel (phoneEntity m1) p1.page_id ∈ inferRelationships p1 (extract_entities p1) ∧
    mentionRel (phoneEntity m2) p2.page_id ∈ inferRelationships p2 (extract_entities p2) ∧
    (∀ (g : Graph) (items : List (String × List (String × String))),
      countKey g "PhoneNumber" "number" ((phoneEntity m1).key_value) ≤ 1 →
      (phoneEntity m1).key_value ∈ items.map Prod.fst →
      countKey (batchMergeNodes g "PhoneNumber" "number" items)
        "PhoneNumber" "number" ((phoneEntity m1).key_value) = 1) := by
  refine ⟨phoneEntity_mem_extract p1 m1 h1, phoneEntity_mem_extract p2 m2 h2,
    by simp [phoneEntity, hn], ?_, ?_, ?_⟩
  · exact mentionRel_mem p1 _ _ (phoneEntity_mem_extract p1 m1 h1)
  · exact mentionRel_mem p2 _ _ (phoneEntity_mem_extract p2 m2 h2)
  · intro g items hle hmem
    exact (countKey_batchMergeNodes "PhoneNumber" "number" items _ g hle).2.2 hmem

/-- Witness for C7 at two concrete page bodies carrying the same number
with different separators. -/
theorem c7_phone_resolution_witness :
    phoneEntity "+1 555 0100" ∈
      extract_entities { page_id := "w71", body := "Call +1 555 0100 now" } ∧
    ((phoneEntity "+1 555 0100").label, (phoneEntity "+1 555 0100").key_field,
      (phoneEntity "+1 555 0100").key_value) =
    ((phoneEntity "+1-555-0100").label, (phoneEntity "+1-555-0100").key_field,
      (phoneEntity "+1-555-0100").key_value) := by
  have h := c7_phone_resolution
    { page_id := "w71", body := "Call +1 555 0100 now" }
    { page_id := "w72", body := "+1-555-0100" }
    "+1 555 0100" "+1-555-0100" (by decide) (by decide) (by decide)
  exact ⟨h.1, h.2.2.1⟩

/-- C1 counterexample: `populate_graph` does not delete all nodes tagged
with the project_id. A stale Person node of project "proj1" (left by an
earlier ingest and not regenerated by the new pages) survives a re-ingest
of "proj1" with its old properties intact. -/
theorem c1_counterexample_entity_not_deleted :
    let stale : GraphNode :=
      { label := "Person", keyField := "uid", keyValue := "deadbeef00000000",
        props := [("project_id", "proj1"), ("name", "Zed")] }
    stale ∈ (populateGraph { nodes := [stale], rels := [] }
        [{ page_id := "p1", extraction_id := "proj1", artifact_type := "contact",
           body := "" }] "P" "t0").1.nodes ∧
    nodeProp stale "project_id" = some "proj1" := by decide

/-- C1 (amended): the delete phase of `populate_graph` removes exactly the
Page nodes carrying the project_id and the Project hub node — entity nodes
are not deleted (they are re-merged by natural key) — and it touches only
nodes carrying that project_id, so every node of any other project survives
the delete phase unchanged. -/
theorem c1_populate_clean_scope (g : Graph) (pid : String) (n : GraphNode) :
    (n ∈ (populateClean g pid).nodes ↔
      n ∈ g.nodes ∧
      ¬(isPageOfProject pid n = true ∨ isProjectHub pid n = true)) ∧
    (n ∈ g.nodes → nodeProp n "project_id" ≠ some pid →
      n ∈ (populateClean g pid).nodes) := by
  have hchar : n ∈ (populateClean g pid).nodes ↔
      n ∈ g.nodes ∧
      ¬(isPageOfProject pid n = true ∨ isProjectHub pid n = true) := by
    simp only [populateClean, detachDeleteWhere, List.mem_filter,
      Bool.not_eq_true', Bool.not_eq_true]
    constructor
    · rintro ⟨⟨hg, hpage⟩, hhub⟩
      exact ⟨hg, by simp [hpage, hhub]⟩
    · rintro ⟨hg, hno⟩
      push_neg at hno
      exact ⟨⟨hg, by simp [hno.1]⟩, by simp [hno.2]⟩
  refine ⟨hchar, fun hg hne => ?_⟩
  refine hchar.mpr ⟨hg, ?_⟩
  rintro (hp | hp)
  · simp only [isPageOfProject, Bool.and_eq_true, beq_iff_eq] at hp
    exact hne hp.2
  · simp only [isProjectHub, Bool.and_eq_true, beq_iff_eq] at hp
    exact hne hp.2

/-- Witness for C1: a Person node of project "proj2" survives the delete
phase of a "proj1" re-ingest. -/
theorem c1_populate_clean_scope_witness :
    ({ label := "Person", keyField := "uid", keyValue := "cafe", props := [("project_id", "proj2")] } : GraphNode) ∈
      (populateClean
        { nodes := [{ label := "Person", keyField := "uid", keyValue := "cafe",
                      props := [("project_id", "proj2")] }], rels := [] } "proj1").nodes :=
  (c1_populate_clean_scope
    { nodes := [{ label := "Person", keyField := "uid", keyValue := "cafe",
                  props := [("project_id", "proj2")] }], rels := [] } "proj1"
    { label := "Person", keyField := "uid", keyValue := "cafe",
      props := [("project_id", "proj2")] }).2 (by decide) (by decide)

/-- C4 counterexample: in the claimed scenario the message page resolves
two Person candidates (Alice from the `From:` line and Bob from the `To:`
line), so `_infer_relationships` does emit a MESSAGED edge, contradicting
"no MESSAGED relationship". -/
theorem c4_counterexample_messaged_emitted :
    let msgPage : FPage :=
      { page_id := "pg2", extraction_id := "ext1", artifact_type := "message",
        body := serialiseMessage
          { direction := "outgoing", sender := "Alice", recipients := ["Bob"],
            body := "Check out https://example.com/docs for the report" } }
    (inferRelationships msgPage (extract_entities msgPage)).countP
      (fun r => r.rel_type == "MESSAGED") = 1 := by decide

set_option maxRecDepth 8000 in
/-- C4 (amended): ingesting the contact record and the Alice-to-Bob message
yields a Person "Alice Smith", a PhoneNumber "+15550100" and a URL node,
each with a MENTIONED_IN edge to its source page — and exactly one MESSAGED
edge, from Person "alice" to Person "bob", because both the sender and the
recipient resolve as Persons on the message page. -/
theorem c4_scenario_extraction :
    let contactPage : FPage :=
      { page_id := "pg1", extraction_id := "ext1", artifact_type := "contact",
        body := serialiseContact
          { name := "Alice Smith", phone_numbers := ["+1-555-0100"] } }
    let msgPage : FPage :=
      { page_id := "pg2", extraction_id := "ext1", artifact_type := "message",
        body := serialiseMessage
          { direction := "outgoing", sender := "Alice", recipients := ["Bob"],
            body := "Check out https://example.com/docs for the report" } }
    (∃ e ∈ extract_entities contactPage, e.label = "Person" ∧
      ("name", "Alice Smith") ∈ e.props ∧
      mentionRel e contactPage.page_id ∈
        inferRelationships contactPage (extract_entities contactPage)) ∧
    (∃ e ∈ extract_entities contactPage, e.label = "PhoneNumber" ∧
      e.key_value = "+15550100" ∧
      mentionRel e contactPage.page_id ∈
        inferRelationships contactPage (extract_entities contactPage)) ∧
    (∃ e ∈ extract_entities msgPage, e.label = "URL" ∧
      e.key_value = "https://example.com/docs" ∧
      mentionRel e msgPage.page_id ∈
        inferRelationships msgPage (extract_entities msgPage)) ∧
    (inferRelationships msgPage (extract_entities msgPage)).countP
      (fun r => r.rel_type == "MESSAGED") = 1 ∧
    (∃ r ∈ inferRelationships msgPage (extract_entities msgPage),
      r.rel_type = "MESSAGED" ∧ r.src_val = uidOf ["person", "alice"] ∧
      r.dst_val = uidOf ["person", "bob"]) ∧
    (inferRelationships contactPage (extract_entities contactPage)).countP
      (fun r => r.rel_type == "MESSAGED") = 0 := by decide

/-- C8: a query that reaches the SYNTHESIZE step (cache miss or cache
skipped) with no vector hits and no graph context — the keyword fallback,
when graph expansion is requested, found nothing — gets the fixed
deterministic answer with provenance "system", its result indeed carries
empty hit and context lists, and the primary generative backend is never
called. -/
theorem c8_no_evidence_no_model_call (env : PipelineEnv) (cache : CacheMap)
    (text : String) (graphDepth : Nat) (includeGraph skipCache skipLlm : Bool)
    (hmiss : (if skipCache then (none, cache) else cacheLookup cache text).1 = none)
    (hhits : retrievedHits env.retr = [])
    (hkw : includeGraph = true → keywordSearchCtx env.searchOracle text = []) :
    (queryPipeline env cache text graphDepth includeGraph skipCache skipLlm).1.vector_hits
        = [] ∧
    (queryPipeline env cache text graphDepth includeGraph skipCache skipLlm).1.graph_context
        = [] ∧
    (queryPipeline env cache text graphDepth includeGraph skipCache skipLlm).1.answer =
      "No matching records found in the ingested device data." ∧
    (queryPipeline env cache text graphDepth includeGraph skipCache skipLlm).1.source =
      "system" ∧
    (queryPipeline env cache text graphDepth includeGraph skipCache skipLlm).2.2 = false := by
  rcases hsc : (if skipCache then (none, cache) else cacheLookup cache text) with ⟨r1, c1⟩
  rw [hsc] at hmiss
  simp only at hmiss
  subst hmiss
  unfold queryPipeline
  rw [hsc]
  cases hin : includeGraph with
  | false =>
    by_cases hsk : skipCache <;> simp [hhits, hydrateCtx, hsk]
  | true =>
    by_cases hsk : skipCache <;> simp [hhits, hkw hin, hydrateCtx, hsk]

/-- Witness for C8: an empty store, an empty index and a query with no
matching graph terms produce the fixed answer without a model call. -/
theorem c8_no_evidence_no_model_call_witness :
    (queryPipeline
        { retr := .ok [], nbrOracle := fun _ _ => [], searchOracle := fun _ => [],
          storePages := [], llmGenerate := fun _ _ => "gen", llmReframe := fun _ r => r,
          now := "t0" } [] "hello" 2 true false false).1.answer =
      "No matching records found in the ingested device data." ∧
    (queryPipeline
        { retr := .ok [], nbrOracle := fun _ _ => [], searchOracle := fun _ => [],
          storePages := [], llmGenerate := fun _ _ => "gen", llmReframe := fun _ r => r,
          now := "t0" } [] "hello" 2 true false false).2.2 = false :=
  ⟨(c8_no_evidence_no_model_call
      { retr := .ok [], nbrOracle := fun _ _ => [], searchOracle := fun _ => [],
        storePages := [], llmGenerate := fun _ _ => "gen", llmReframe := fun _ r => r,
        now := "t0" } [] "hello" 2 true false false
      (by decide) rfl (fun _ => rfl)).2.2.1,
   (c8_no_evidence_no_model_call
      { retr := .ok [], nbrOracle := fun _ _ => [], searchOracle := fun _ => [],
        storePages := [], llmGenerate := fun _ _ => "gen", llmReframe := fun _ r => r,
        now := "t0" } [] "hello" 2 true false false
      (by decide) rfl (fun _ => rfl)).2.2.2.2⟩

lemma fst_vector_hits_ite {c : Prop} [Decidable c] (x y : QueryResult × CacheMap × Bool)
    (hx : x.1.vector_hits = []) (hy : y.1.vector_hits = []) :
    (if c then x else y).1.vector_hits = [] := by
  split <;> assumption

/-- C9: if the vector-retrieval backend raises, the query behaves exactly
as if retrieval had returned no hits: the whole pipeline outcome (result,
cache state, model-call flag) is identical to the empty-hit run, and the
result reports an empty vector-hit list — the failure is invisible to the
caller as an error. -/
theorem c9_retrieval_failure_degrades (e : String) (env : PipelineEnv)
    (cache : CacheMap) (text : String) (graphDepth : Nat)
    (includeGraph skipCache skipLlm : Bool) :
    queryPipeline { env with retr := .error e } cache text graphDepth
        includeGraph skipCache skipLlm =
      queryPipeline { env with retr := .ok [] } cache text graphDepth
        includeGraph skipCache skipLlm ∧
    (queryPipeline { env with retr := .error e } cache text graphDepth
        includeGraph skipCache skipLlm).1.vector_hits = [] := by
  constructor
  · rfl
  · rcases hsc : (if skipCache then (none, cache) else cacheLookup cache text) with ⟨r1, c1⟩
    unfold queryPipeline
    rw [hsc]
    cases r1 with
    | none => exact fst_vector_hits_ite _ _ rfl rfl
    | some entry => exact fst_vector_hits_ite _ _ rfl rfl

end Forensiq
